import Mathlib

/-!
Verification development for the `openwebui-scripts` repository.

The repository is a collection of OpenWebUI plugin scripts.  This file gives a
shallow embedding, in Lean 4, of the pieces of the code that the verified
properties talk about:

* `src/Tools/add_memory.py` — the memory reconciliation tool (`Tools.add_memory`);
* `src/Tools/weather_forecast.py` — the Open-Meteo weather tool
  (`Tools.get_current_weather`, `resolve_datetime`, `parse_time_string`);
* `src/Tools/marine_weather.py` — the World Weather Online marine tool
  (`Tools.get_marine_weather`, `Tools._resolve_location`,
  `Tools._format_weather_report`, `convert_unit`, `format_unit`);
* `src/Pipes/vision_multimodal.py` — the vision pipe (`Pipe.pipe`).

Modelling conventions:

* Python floats are embedded as `ℚ` (all the arithmetic at issue is exact
  decimal arithmetic on small literals);
* Python exceptions are embedded as `Except String` — `.error e` is an
  exception carrying message `e` that propagates; a `try/except` block is a
  `match` converting `.error` into a normal value;
* external collaborators (the OpenWebUI memory store, the HTTP services,
  `dateparser`, and `difflib.SequenceMatcher.ratio`) are parameters of the
  embedded functions: the code under `src/` is embedded exactly, the
  collaborators are oracles;
* the side effects on the host memory store and the network calls are made
  observable as explicit operation traces (`MemOp`, `NetOp`);
* Python string primitives (`split`, `strip`, `lower`, `zfill`,
  `str.replace`, `float()`, `int()`, `urllib.parse.quote`) are re-implemented
  over `List Char` so that every definition evaluates inside the kernel.
-/

/-! ### Python string primitives -/

/-- Python `str.join` over a list of strings (`sep.join(parts)`). -/
def pyJoin (sep : String) : List String → String
  | [] => ""
  | [x] => x
  | x :: xs => x ++ sep ++ pyJoin sep xs

/-- Characters treated as whitespace by Python `str.strip()`. -/
def pySpaceChar (c : Char) : Bool :=
  c = ' ' ∨ c = '\t' ∨ c = '\n' ∨ c = '\x0d' ∨ c = '\x0b' ∨ c = '\x0c'

/-- Python `str.strip()` on a character list. -/
def pyStripL (cs : List Char) : List Char :=
  ((cs.dropWhile pySpaceChar).reverse.dropWhile pySpaceChar).reverse

/-- Python `str.strip()`. -/
def pyStrip (s : String) : String := String.mk (pyStripL s.toList)

/-- Split a character list on every occurrence of the character `sep`
(Python `str.split(sep)` with a one-character separator). -/
def pySplitCharL (sep : Char) : List Char → List (List Char)
  | [] => [[]]
  | c :: cs =>
    let rest := pySplitCharL sep cs
    if c = sep then [] :: rest
    else
      match rest with
      | [] => [[c]]
      | p :: ps => (c :: p) :: ps

/-- Python `str.split(sep)` with a one-character separator. -/
def pySplitChar (sep : Char) (s : String) : List String :=
  (pySplitCharL sep s.toList).map String.mk

/-- Python `c in s` for a one-character needle. -/
def pyContainsChar (s : String) (c : Char) : Bool := s.toList.contains c

/-- Python `str.lower()` (ASCII case folding, which is all the code relies on). -/
def pyLower (s : String) : String := String.mk (s.toList.map Char.toLower)

/-- Python `str.replace(old, new)` for one-character `old`/`new`
(used for `location.replace(" ", "-")`). -/
def pyReplaceChar (old new : Char) (s : String) : String :=
  String.mk (s.toList.map (fun c => if c = old then new else c))

/-- Python `str.startswith(prefix)` on character lists. -/
def pyStartsWithL : List Char → List Char → Bool
  | _, [] => true
  | [], _ :: _ => false
  | c :: cs, p :: ps => c = p ∧ pyStartsWithL cs ps

/-- Python `str.startswith(prefix)`. -/
def pyStartsWith (s pre : String) : Bool := pyStartsWithL s.toList pre.toList

/-- Python `str.endswith(suffix)` for a one-character suffix. -/
def pyEndsWithChar (s : String) (c : Char) : Bool :=
  match s.toList.reverse with
  | [] => false
  | last :: _ => last = c

/-- Python `s[:-1]`: drop the last character. -/
def pyDropLast (s : String) : String := String.mk (s.toList.dropLast)

/-- Python `s[:n]`: take the first `n` characters. -/
def pyTake (s : String) (n : Nat) : String := String.mk (s.toList.take n)

/-- Python `str.zfill(width)` restricted to unsigned inputs: pad with `'0'`
on the left up to `width` characters. -/
def pyZfill (width : Nat) (s : String) : String :=
  String.mk (List.replicate (width - s.toList.length) '0' ++ s.toList)

/-- Numeric value of a list of decimal digit characters. -/
def digitsVal (cs : List Char) : Nat :=
  cs.foldl (fun acc c => acc * 10 + (c.toNat - '0'.toNat)) 0

/-- Python `int(s)` on a decimal string: optional sign after stripping
whitespace, then one or more digits.  `none` embeds the `ValueError` raised
on any other input. -/
def pyInt? (s : String) : Option Int :=
  let cs := pyStripL s.toList
  let signed : Bool × List Char :=
    match cs with
    | '-' :: rest => (true, rest)
    | '+' :: rest => (false, rest)
    | rest => (false, rest)
  if signed.2 ≠ [] ∧ signed.2.all Char.isDigit then
    some (if signed.1 then -(digitsVal signed.2 : Int) else (digitsVal signed.2 : Int))
  else none

/-- Python `float(s)` on a plain decimal string: optional sign, digits with at
most one decimal point and at least one digit.  `none` embeds the `ValueError`
raised on any other input (the source never feeds exponent notation to
`float`). -/
def pyFloat? (s : String) : Option ℚ :=
  let cs := pyStripL s.toList
  let signed : Bool × List Char :=
    match cs with
    | '-' :: rest => (true, rest)
    | '+' :: rest => (false, rest)
    | rest => (false, rest)
  let body := signed.2
  if body.all (fun c => c.isDigit ∨ c = '.') ∧ body.count '.' ≤ 1 ∧ body.any Char.isDigit then
    let intPart := body.takeWhile (fun c => c ≠ '.')
    let fracPart := (body.dropWhile (fun c => c ≠ '.')).drop 1
    let mag : ℚ :=
      mkRat (digitsVal intPart * 10 ^ fracPart.length + digitsVal fracPart) (10 ^ fracPart.length)
    some (if signed.1 then -mag else mag)
  else none

/-- Lower-case hexadecimal digit. -/
def hexDigit (n : Nat) : Char :=
  if n < 10 then Char.ofNat ('0'.toNat + n) else Char.ofNat ('a'.toNat + (n - 10))

/-- Escaping of one character by Python `json.dumps` with `ensure_ascii=False`. -/
def jsonEscapeChar (c : Char) : String :=
  if c = '"' then "\\\""
  else if c = '\\' then "\\\\"
  else if c = '\n' then "\\n"
  else if c = '\x0d' then "\\r"
  else if c = '\t' then "\\t"
  else if c = '\x08' then "\\b"
  else if c = '\x0c' then "\\f"
  else if c.toNat < 32 then
    "\\u00" ++ String.mk [hexDigit (c.toNat / 16), hexDigit (c.toNat % 16)]
  else String.mk [c]

/-- Escaping of a string by Python `json.dumps` with `ensure_ascii=False`. -/
def jsonEscape (s : String) : String :=
  s.toList.foldl (fun acc c => acc ++ jsonEscapeChar c) ""

/-- The exact text produced by `json.dumps({"message": m}, ensure_ascii=False)`:
a JSON object with exactly the one key `"message"`, whose value is the string
`m`.  Every `return` statement of the weather tools, and the structured-output
branch of the memory tool, goes through this shape. -/
def jsonMsg (m : String) : String :=
  "\x7b\"message\": \"" ++ jsonEscape m ++ "\"\x7d"

/-! ### `src/Tools/add_memory.py` — data model -/

/-- A host memory-store entry as read back by
`Memories.get_memories_by_user_id`: an identifier, the text content and the
creation timestamp used for the oldest-first scan order. -/
structure MemoryEntry where
  id : Nat
  content : String
  created_at : Int
  deriving Repr, DecidableEq

instance : Inhabited MemoryEntry := ⟨⟨0, "", 0⟩⟩

/-- An operation issued to the host memory store. -/
inductive MemOp where
  | read (userId : String)
  | update (memId : Nat) (content : String)
  | insert (userId : String) (content : String)
  deriving Repr, DecidableEq

/-- The host memory store, as seen by one `add_memory` call: the list returned
by `Memories.get_memories_by_user_id`, and the truthiness of the results of
`Memories.update_memory_by_id` and `Memories.insert_new_memory`. -/
structure MemStore where
  memories : List MemoryEntry
  updateOk : Nat → String → Bool
  insertOk : String → String → Bool

/-- Sort key order of `sorted(user_memories, key=lambda m: m.created_at)`. -/
def createdLE (a b : MemoryEntry) : Prop := a.created_at ≤ b.created_at

instance : DecidableRel createdLE := fun a b => inferInstanceAs (Decidable (_ ≤ _))

instance : IsTotal MemoryEntry createdLE := ⟨fun a b => le_total a.created_at b.created_at⟩

instance : IsTrans MemoryEntry createdLE := ⟨fun _ _ _ h1 h2 => le_trans h1 h2⟩

/-- `sorted(user_memories, key=lambda m: m.created_at)` — a stable sort by
creation time (Python's `sorted` is stable; so is insertion sort). -/
def sortByCreatedAt (l : List MemoryEntry) : List MemoryEntry :=
  l.insertionSort createdLE

/-- The inner scan of `add_memory` for one candidate `new` (lines 187–197 of
`add_memory.py`): walk the sorted entries with `enumerate`; on an entry whose
similarity ratio strictly exceeds the threshold, issue
`Memories.update_memory_by_id`; if its result is truthy record `(idx + 1, new)`
and `break`; on a falsy result the loop simply continues with the next entry.
Returns the recorded 1-based index (if any) and the issued store operations.
`sim` abstracts `difflib.SequenceMatcher(None, new, existing.content).ratio()`. -/
def scanForUpdate (sim : String → String → ℚ) (t : ℚ) (updOk : Nat → String → Bool)
    (new : String) : List MemoryEntry → Nat → Option Nat × List MemOp
  | [], _ => (none, [])
  | e :: rest, idx =>
    if t < sim new e.content then
      if updOk e.id new then (some (idx + 1), [MemOp.update e.id new])
      else
        let r := scanForUpdate sim t updOk new rest (idx + 1)
        (r.1, MemOp.update e.id new :: r.2)
    else scanForUpdate sim t updOk new rest (idx + 1)

/-- The per-call accumulators of `add_memory`: the `added`, `updated` and
`failed` lists, plus the trace of store operations issued so far. -/
structure ReconcileState where
  added : List String
  updated : List (Nat × String)
  failed : List String
  ops : List MemOp
  deriving Repr, DecidableEq

/-- Processing of one candidate string by the `for new in input_text` loop of
`add_memory` (lines 186–203): scan the sorted entries for an update; if no
update succeeded, issue `Memories.insert_new_memory` and record the candidate
as added or failed according to the result's truthiness. -/
def processCandidate (sim : String → String → ℚ) (t : ℚ) (store : MemStore)
    (userId : String) (sorted : List MemoryEntry) (st : ReconcileState)
    (new : String) : ReconcileState :=
  match scanForUpdate sim t store.updateOk new sorted 0 with
  | (some idx, ops) =>
    { st with updated := st.updated ++ [(idx, new)], ops := st.ops ++ ops }
  | (none, ops) =>
    if store.insertOk userId new then
      { st with added := st.added ++ [new], ops := st.ops ++ ops ++ [MemOp.insert userId new] }
    else
      { st with failed := st.failed ++ [new], ops := st.ops ++ ops ++ [MemOp.insert userId new] }

/-- The whole candidate loop of `add_memory` over the input list, starting from
the state holding the initial `Memories.get_memories_by_user_id` read. -/
def reconcile (sim : String → String → ℚ) (t : ℚ) (store : MemStore)
    (userId : String) (input_text : List String) : ReconcileState :=
  input_text.foldl
    (processCandidate sim t store userId (sortByCreatedAt store.memories))
    { added := [], updated := [], failed := [], ops := [MemOp.read userId] }

/-- `Tools._reply` (lines 89–93): JSON-wrap the message when
`use_native_tools` is set, otherwise return it as-is. -/
def reply (useNative : Bool) (message : String) : String :=
  if useNative then jsonMsg message else message

/-- The `message_parts` built at lines 204–215 of `add_memory.py`. -/
def addMemoryParts (added : List String) (updated : List (Nat × String))
    (failed : List String) : List String :=
  (if added ≠ [] then [toString added.length ++ " souvenir(s) ajoutée(s)."] else []) ++
  (if updated ≠ [] then [toString updated.length ++ " souvenir(s) mise(s) à jour."] else []) ++
  (if failed ≠ [] then
    [toString failed.length ++ " souvenir(s) n\x27a/n\x27ont pas pu être ajouté(s) ou mis à jour."]
   else []) ++
  (if added = [] ∧ updated = [] ∧ failed = [] then ["Aucun souvenir ajouté ou mis à jour."] else [])

/-- The `added_str` detail block (lines 224–228). -/
def addedStr (added : List String) : String :=
  if added.length > 0 then "\nNouveaux souvenirs : \n- " ++ pyJoin "\n- " added else ""

/-- The `updated_str` detail block (lines 229–234). -/
def updatedStr (updated : List (Nat × String)) : String :=
  if updated.length > 0 then
    "\nMis à jour : \n- " ++
      pyJoin "\n- " (updated.map (fun p => toString p.1 ++ ". " ++ p.2))
  else ""

/-- The final message text of a successful `add_memory` run
(lines 222–236): the joined parts, plus the literal detail blocks when
`use_native_tools` is off. -/
def addMemoryMessage (useNative : Bool) (added : List String)
    (updated : List (Nat × String)) (failed : List String) : String :=
  let parts := pyJoin " " (addMemoryParts added updated failed)
  if useNative then parts else parts ++ addedStr added ++ updatedStr updated

/-- The message of the `AttributeError` raised at lines 162/170 of
`add_memory.py`: the missing-user branches call `self._format_response`, but
the `Tools` class defines no such method (only `_reply`), so Python raises
`AttributeError` with exactly this text, which the enclosing
`except Exception` turns into an `"An error occurred: ..."` reply. -/
def formatResponseAttrMsg : String :=
  "\x27Tools\x27 object has no attribute \x27_format_response\x27"

/-- The user identifier resolution at lines 157–170: `none` when `__user__` is
falsy (absent or an empty dict), when `__user__.get("id")` is `None`, or when
the identifier is the empty (falsy) string.  The embedded argument
`user : Option (Option String)` is `none` for a falsy `__user__`, and
`some id?` for a truthy dict whose `"id"` lookup gives `id?`. -/
def userIdResolvable : Option (Option String) → Option String
  | none => none
  | some none => none
  | some (some uid) => if uid = "" then none else some uid

/-- Result of one `Tools.add_memory` call: the returned string plus the trace
of memory-store operations issued during the call. -/
structure AddMemoryResult where
  message : String
  ops : List MemOp
  deriving Repr, DecidableEq

/-- `Tools.add_memory` (lines 95–244 of `add_memory.py`).  Parameters:
`sim` abstracts `difflib.SequenceMatcher(...).ratio()`, `t` is
`self.valves.threshold`, `useNative` is `self.valves.use_native_tools`,
`store` is the host memory store, `user` embeds `__user__` and `input_text`
the candidate list.  When no user identifier is resolvable the code calls the
undefined `self._format_response`, so the `except Exception` handler replies
with the `AttributeError` text and no store operation is issued.  Otherwise it
reads the user's memories, runs the reconciliation loop and formats the
summary message. -/
def add_memory (sim : String → String → ℚ) (t : ℚ) (useNative : Bool)
    (store : MemStore) (user : Option (Option String))
    (input_text : List String) : AddMemoryResult :=
  match userIdResolvable user with
  | none =>
    { message := reply useNative ("An error occurred: " ++ formatResponseAttrMsg), ops := [] }
  | some uid =>
    let final := reconcile sim t store uid input_text
    { message := reply useNative (addMemoryMessage useNative final.added final.updated final.failed),
      ops := final.ops }

/-- Similarity oracle used to instantiate witnesses: ratio 1 on equal strings,
0 otherwise (a legitimate value of the abstracted `difflib` ratio). -/
def simEq (a b : String) : ℚ := if a = b then 1 else 0

/-! ### Date/time resolution — `src/Tools/weather_forecast.py` lines 34–55 -/

/-- A Python `datetime` restricted to the fields the embedded code reads. -/
structure PyDateTime where
  year : Nat
  month : Nat
  day : Nat
  hour : Nat
  minute : Nat
  second : Nat
  deriving Repr, DecidableEq

/-- Match of the regex `\s*à?\s*(\d{1,2})h` (with `re.IGNORECASE`) at the
start of a character list; returns the captured digit characters.  The
engine's backtracking over `\d{1,2}` reduces to: two digits followed by `h`,
else one digit followed by `h`. -/
def hourMatch (cs : List Char) : Option (List Char) :=
  let afterSpace := cs.dropWhile pySpaceChar
  let afterA :=
    match afterSpace with
    | 'à' :: rest => rest.dropWhile pySpaceChar
    | 'À' :: rest => rest.dropWhile pySpaceChar
    | rest => rest
  match afterA with
  | d1 :: d2 :: d3 :: _ =>
    if d1.isDigit ∧ d2.isDigit ∧ (d3 = 'h' ∨ d3 = 'H') then some [d1, d2]
    else if d1.isDigit ∧ (d2 = 'h' ∨ d2 = 'H') then some [d1]
    else none
  | d1 :: d2 :: _ => if d1.isDigit ∧ (d2 = 'h' ∨ d2 = 'H') then some [d1] else none
  | _ => none

/-- `parse_time_string` of `weather_forecast.py` (lines 34–42): `None` on a
falsy input; `"<digits>:00"` when the hour regex matches the stripped input;
otherwise the stripped input itself. -/
def wf_parse_time_string (timeStr : String) : Option String :=
  if timeStr = "" then none
  else
    match hourMatch (pyStripL timeStr.toList) with
    | some ds => some (String.mk ds ++ ":00")
    | none => some (pyStrip timeStr)

/-- The `combined_str` built by `resolve_datetime` (lines 48–52): the date
text, then a space and the normalized hour text, each only if truthy. -/
def combinedDateHour (dateStr hourStr : String) : String :=
  (if dateStr ≠ "" then dateStr else "") ++
  (if hourStr ≠ "" then " " ++ (wf_parse_time_string hourStr).getD "" else "")

/-- `resolve_datetime` (lines 45–55): parse the combined string with
`dateparser.parse` anchored at `datetime.now()`; if parsing yields no result,
use the anchor unmodified.  `parse` abstracts `dateparser.parse` with the
`RELATIVE_BASE` and `languages` settings fixed by the call; `base` is
`datetime.now()`. -/
def resolve_datetime (parse : String → Option PyDateTime) (base : PyDateTime)
    (dateStr hourStr : String) : PyDateTime :=
  (parse (combinedDateHour dateStr hourStr)).getD base

/-- Zero-padded two-digit rendering (`strftime` field). -/
def fmt2 (n : Nat) : String := if n < 10 then "0" ++ toString n else toString n

/-- Zero-padded four-digit rendering (`strftime` `%Y`). -/
def fmt4 (n : Nat) : String :=
  if n < 10 then "000" ++ toString n
  else if n < 100 then "00" ++ toString n
  else if n < 1000 then "0" ++ toString n
  else toString n

/-- `resolved_dt.strftime("%Y-%m-%dT%H:00")` (line 404): the instant used for
the forecast lookup, truncated to hour granularity — the minute and second
fields are never read. -/
def targetHourStr (dt : PyDateTime) : String :=
  fmt4 dt.year ++ "-" ++ fmt2 dt.month ++ "-" ++ fmt2 dt.day ++ "T" ++ fmt2 dt.hour ++ ":00"

/-! ### `src/Tools/weather_forecast.py` — `Tools.get_current_weather` -/

/-- One entry of the geocoding API's `results` list (the fields the code
reads). -/
structure GeoCandidate where
  name : String
  latitude : ℚ
  longitude : ℚ
  admin1? : Option String
  country? : Option String
  deriving Repr, DecidableEq

/-- A network call issued by the weather tools. -/
inductive NetOp where
  | reverseGeocode (lat lon : ℚ)
  | forwardGeocode (query : String)
  | forecastFetch (lat lon : ℚ)
  | marineFetch (url : String)
  deriving Repr, DecidableEq

/-- UTF-8 bytes of one character. -/
def utf8Bytes (c : Char) : List Nat :=
  let n := c.toNat
  if n < 0x80 then [n]
  else if n < 0x800 then [0xC0 + n / 0x40, 0x80 + n % 0x40]
  else if n < 0x10000 then [0xE0 + n / 0x1000, 0x80 + (n / 0x40) % 0x40, 0x80 + n % 0x40]
  else [0xF0 + n / 0x40000, 0x80 + (n / 0x1000) % 0x40, 0x80 + (n / 0x40) % 0x40, 0x80 + n % 0x40]

/-- Upper-case hexadecimal digit (as used by `urllib.parse.quote`). -/
def hexDigitUpper (n : Nat) : Char :=
  if n < 10 then Char.ofNat ('0'.toNat + n) else Char.ofNat ('A'.toNat + (n - 10))

/-- Characters `urllib.parse.quote` leaves unescaped with its default
`safe='/'`. -/
def urlQuoteSafe (c : Char) : Bool :=
  c.isAlpha ∨ c.isDigit ∨ c = '_' ∨ c = '.' ∨ c = '-' ∨ c = '~' ∨ c = '/'

/-- Percent-encoding of one character's UTF-8 bytes. -/
def pctEncode (c : Char) : String :=
  (utf8Bytes c).foldl
    (fun acc b => acc ++ "%" ++ String.mk [hexDigitUpper (b / 16), hexDigitUpper (b % 16)]) ""

/-- `urllib.parse.quote(city_query)` (line 363). -/
def urlQuote (s : String) : String :=
  s.toList.foldl (fun acc c => acc ++ (if urlQuoteSafe c then String.mk [c] else pctEncode c)) ""

/-- Match of the regex `(?P<lat>[\d\.]+), (?P<long>[\d\.]+)` at the start of a
string (line 325 of `weather_forecast.py`, line 177 of `marine_weather.py`):
a maximal nonempty run of digits/dots, the literal `", "`, then another
nonempty run of digits/dots (no end anchor). -/
def metaCoordMatch (s : String) : Option (String × String) :=
  let cs := s.toList
  let latPart := cs.takeWhile (fun c => c.isDigit ∨ c = '.')
  if latPart = [] then none
  else
    match cs.drop latPart.length with
    | ',' :: ' ' :: rest =>
      let lonPart := rest.takeWhile (fun c => c.isDigit ∨ c = '.')
      if lonPart = [] then none else some (String.mk latPart, String.mk lonPart)
    | _ => none

/-- `re.match(r"\d+", s)` truthiness: the string starts with a digit. -/
def matchLeadingDigits (s : String) : Bool :=
  match s.toList with
  | c :: _ => c.isDigit
  | [] => false

/-- The forecast endpoint's response, restricted to the fields the code
inspects.  `reportLines` abstracts the numeric field extraction and
`build_weather_report` rendering (lines 469–560): it yields the report lines
as a function of the resolved location, coordinates, target time string and
the selected hourly index.  No verified property concerns the lines' text. -/
structure ForecastResponse where
  status : Nat
  hasCurrentWeather : Bool
  hourlyTimes : List String
  reportLines : String → ℚ → ℚ → String → Nat → List String

/-- The external collaborators of one `get_current_weather` call. -/
structure WFOracle where
  reverseGeo : ℚ → ℚ → String
  geoStatus : String → Nat
  geoResults : String → List GeoCandidate
  forecast : ForecastResponse
  parseDT : String → Option PyDateTime
  now : PyDateTime

/-- The user valves read by the embedded control flow.  The language valve and
the unit/toggle valves only parameterize the abstracted oracles
(`parseDT`, `reportLines`) and the request parameters, so they are not
repeated here. -/
structure WFUserValves where
  shorten_location : Bool

/-- Selection of the hourly index (lines 456–460): the first exact match of
the target string in the `time` series, else
`max(i for i, t in enumerate(hourly_times) if t.startswith(target_hour_str[:13]))`
— the largest index sharing the 13-character date-and-hour prefix; `max` on an
empty generator raises `ValueError`. -/
def selectHourlyIndex (times : List String) (target : String) : Except String Nat :=
  if times.contains target then .ok (times.indexOf target)
  else
    match ((times.enum.filter (fun p => pyStartsWith p.2 (pyTake target 13))).map Prod.fst).max? with
    | some i => .ok i
    | none => .error "max() arg is an empty sequence"

/-- The code of `get_current_weather` that runs BEFORE the `try` block
(lines 317–339): when the location argument is empty and the request metadata
carries a truthy `{{USER_LOCATION}}` string matching the coordinate regex, the
coordinates are `float`-parsed — a `ValueError` here (`.error`) is raised
outside the `try` and propagates to the host — and reverse-geocoded.
`metadata` is `some m` when `__metadata__["variables"]["{{USER_LOCATION}}"]`
is present and truthy. -/
def wfPre (o : WFOracle) (location : String) (metadata : Option String) :
    Except String (Option (ℚ × ℚ × String)) × List NetOp :=
  if location = "" then
    match metadata with
    | some m =>
      match metaCoordMatch m with
      | some (latS, lonS) =>
        match pyFloat? (pyStrip latS), pyFloat? (pyStrip lonS) with
        | some la, some lo => (.ok (some (la, lo, o.reverseGeo la lo)), [NetOp.reverseGeocode la lo])
        | _, _ => (.error "could not convert string to float", [])
      | none => (.ok none, [])
    | none => (.ok none, [])
  else (.ok none, [])

/-- Early-return-or-value outcome of a step inside the `try` block. -/
inductive EarlyOr (α : Type) where
  | reply (msg : String)
  | value (a : α)
  deriving Repr

/-- The location-lookup section inside the `try` block (lines 342–397).  It
runs when `not latitude and not longitude` (both unset, or both `0.0` — the
Python falsiness of floats is preserved).  A comma splits the query into city
and state; if both halves start with a digit they are `float`-parsed directly
(a `ValueError` here is `.error`, caught by the enclosing handler), otherwise
the city is URL-encoded and forward-geocoded; a state match on `admin1` is
case-insensitive, else the first candidate wins. -/
def wfLocate (o : WFOracle) (valves : WFUserValves) (location : String)
    (pre : Option (ℚ × ℚ × String)) : Except String (EarlyOr (ℚ × ℚ × String)) × List NetOp :=
  let needLookup : Bool :=
    match pre with
    | none => true
    | some (la, lo, _) => la = 0 ∧ lo = 0
  if needLookup then
    let cityState : String × Option String :=
      if pyContainsChar location ',' then
        let parts := pySplitChar ',' location
        (pyStrip (parts.headD ""), some (pyStrip (parts.getD 1 "")))
      else (pyReplaceChar ' ' '-' location, none)
    let city := cityState.1
    let state? := cityState.2
    let numeric : Bool :=
      match state? with
      | some st => st ≠ "" ∧ matchLeadingDigits city ∧ matchLeadingDigits st
      | none => false
    if numeric then
      match pyFloat? city, pyFloat? ((state?).getD "") with
      | some la, some lo => (.ok (.value (la, lo, o.reverseGeo la lo)), [NetOp.reverseGeocode la lo])
      | _, _ => (.error "could not convert string to float", [])
    else
      let encoded := urlQuote city
      let ops := [NetOp.forwardGeocode encoded]
      if o.geoStatus encoded ≠ 200 then
        (.ok (.reply "Error: Could not get geolocation data."), ops)
      else
        match o.geoResults encoded with
        | [] => (.ok (.reply ("Error: Location \x27" ++ city ++ "\x27 not found.")), ops)
        | r0 :: rs =>
          let chosen? : Option GeoCandidate :=
            match state? with
            | some st =>
              if st ≠ "" then
                (r0 :: rs).find? (fun r =>
                  match r.admin1? with
                  | some a => pyLower a = pyLower st
                  | none => false)
              else none
            | none => none
          let chosen := chosen?.getD r0
          let resolved0 := chosen.name
          let resolved1 :=
            if ¬ valves.shorten_location then
              match chosen.admin1? with
              | some a => resolved0 ++ ", " ++ a
              | none => resolved0
            else resolved0
          let resolved :=
            match chosen.country? with
            | some c => resolved1 ++ ", " ++ c
            | none => resolved1
          (.ok (.value (chosen.latitude, chosen.longitude, resolved)), ops)
  else
    match pre with
    | some v => (.ok (.value v), [])
    | none => (.ok (.value (0, 0, "")), [])

/-- `Tools.get_current_weather` (lines 263–569).  The result is
`.error e` exactly when a Python exception propagates to the host (only
possible from the pre-`try` section `wfPre`); every path inside the `try`
block — the early error returns and the `except Exception` handler — returns
`.ok` of a `json.dumps({"message": ...})` string.  The second component is
the trace of network calls. -/
def get_current_weather (o : WFOracle) (valves : WFUserValves)
    (location date hour : String) (metadata : Option String) :
    Except String String × List NetOp :=
  match wfPre o location metadata with
  | (.error e, ops0) => (.error e, ops0)
  | (.ok pre, ops0) =>
    match wfLocate o valves location pre with
    | (.error e, ops1) => (.ok (jsonMsg ("An error occurred: " ++ e)), ops0 ++ ops1)
    | (.ok (.reply m), ops1) => (.ok (jsonMsg m), ops0 ++ ops1)
    | (.ok (.value (la, lo, resolved)), ops1) =>
      let dt := resolve_datetime o.parseDT o.now date hour
      let target := targetHourStr dt
      let ops2 := ops0 ++ ops1 ++ [NetOp.forecastFetch la lo]
      if o.forecast.status ≠ 200 then
        (.ok (jsonMsg "Error: Could not get weather data."), ops2)
      else if ¬ o.forecast.hasCurrentWeather then
        (.ok (jsonMsg "Error: Weather data not available."), ops2)
      else
        match selectHourlyIndex o.forecast.hourlyTimes target with
        | .error e => (.ok (jsonMsg ("An error occurred: " ++ e)), ops2)
        | .ok idx =>
          (.ok (jsonMsg (pyJoin "\n" (o.forecast.reportLines resolved la lo target idx))), ops2)

/-! ### `src/Tools/marine_weather.py` — unit conversion -/

/-- `convert_unit` (lines 31–58): the fixed-multiplier conversion chain.  The
`float(value)` coercion is embedded by taking the value as `ℚ` directly. -/
def convert_unit (value : ℚ) (from_unit to_unit : String) : ℚ :=
  if from_unit = "celsius" ∧ to_unit = "fahrenheit" then value * 9 / 5 + 32
  else if from_unit = "celsius" ∧ to_unit = "kelvin" then value + (27315 : ℚ) / 100
  else if from_unit = "kmh" ∧ to_unit = "mph" then value * ((621371 : ℚ) / 1000000)
  else if from_unit = "kmh" ∧ to_unit = "knots" then value * ((539957 : ℚ) / 1000000)
  else if from_unit = "m" ∧ to_unit = "ft" then value * ((328084 : ℚ) / 100000)
  else if from_unit = "km" ∧ to_unit = "miles" then value * ((621371 : ℚ) / 1000000)
  else if from_unit = "hpa" ∧ to_unit = "inhg" then value * ((2953 : ℚ) / 100000)
  else value

/-- `format_unit` (lines 61–100): value-with-symbol formatting per unit system
(note the source spells the metric wind system `"metrique"`).  Any
unrecognized combination falls through to `(value, "")`. -/
def format_unit (value : ℚ) (unit_type unit_system : String) : ℚ × String :=
  if unit_type = "temperature" then
    if unit_system = "celsius" then (value, "°C")
    else if unit_system = "fahrenheit" then (value, "°F")
    else if unit_system = "kelvin" then (value + (27315 : ℚ) / 100, "K")
    else (value, "")
  else if unit_type = "wind" then
    if unit_system = "metrique" then (value, "km/h")
    else if unit_system = "imperial" then (value * ((621371 : ℚ) / 1000000), "mph")
    else if unit_system = "knots" then (value * ((539957 : ℚ) / 1000000), "knots")
    else (value, "")
  else if unit_type = "distance" then
    if unit_system = "metric" then (value, "m")
    else if unit_system = "imperial" then (value * ((328084 : ℚ) / 100000), "ft")
    else (value, "")
  else if unit_type = "visibility" then
    if unit_system = "metric" then (value, "km")
    else if unit_system = "imperial" then (value, "miles")
    else (value, "")
  else if unit_type = "pressure" then
    if unit_system = "metric" then (value, "hPa")
    else if unit_system = "imperial" then (value, "inHg")
    else (value, "")
  else (value, "")

/-! ### `src/Tools/marine_weather.py` — location resolution and report -/

/-- `parse_time_string` of `marine_weather.py` (lines 22–28): `"<digits>:00"`
when the hour regex matches the stripped input, otherwise the stripped
input. -/
def marine_parse_time_string (timeStr : String) : String :=
  match hourMatch (pyStripL timeStr.toList) with
  | some ds => String.mk ds ++ ":00"
  | none => pyStrip timeStr

/-- One hourly record of the World Weather Online response.  The measurement
fields and their unit-converted rendering (lines 298–353) are abstracted as
the precomputed `rendered` lines: no verified property concerns their
content; the `time` field, which drives the hour selection, is exact. -/
structure MarineHourRec where
  time : String
  rendered : List String
  deriving Repr, DecidableEq

/-- One day of the World Weather Online response (the fields the code reads;
the `astronomy[0]` sunrise/sunset lookups with their `'?'` defaults are
embedded as the resulting strings). -/
structure MarineDay where
  date : String
  sunrise : String
  sunset : String
  hourly : List MarineHourRec
  deriving Repr, DecidableEq

/-- The record filter `[h for h in selected_hours if h["time"].zfill(4) ==
user_hour_str]` (lines 283 and 291). -/
def marineMatchedHours (hours : List MarineHourRec) (userHour : String) : List MarineHourRec :=
  hours.filter (fun h => pyZfill 4 h.time = userHour)

/-- `re.sub(r"\\D", "", hour)` (line 281).  In the raw string `r"\\D"` the
double backslash is an ESCAPED backslash: the pattern matches the literal two
characters `\D`, not "non-digit" — the substitution removes `\D` sequences
and nothing else. -/
def removeBackslashD : List Char → List Char
  | [] => []
  | '\\' :: 'D' :: rest => removeBackslashD rest
  | c :: rest => c :: removeBackslashD rest

/-- The hour selection of `_format_weather_report` (lines 276–292): filter the
day's records on the user hour string; when nothing matches, fall back to
`min((t for t in all_times if t > int(user_hour_str)), default=max(all_times,
default=None))` — the nearest later hour, else the latest hour, else no
record — and re-filter on the fallback time.  `int()` on a non-numeric time
raises `ValueError` (`.error`). -/
def marineSelectHours (hours : List MarineHourRec) (userHour : String) :
    Except String (List MarineHourRec) :=
  let matched := marineMatchedHours hours userHour
  if matched.isEmpty then
    match hours.mapM (fun h => pyInt? h.time) with
    | none => .error "invalid literal for int() with base 10"
    | some vals =>
      let all_times := vals.insertionSort (· ≤ ·)
      -- `min((t for t in all_times if t > int(user_hour_str)), default=...)`:
      -- with an empty series the generator never evaluates `int(user_hour_str)`
      -- (no `ValueError`) and the default `max(all_times, default=None)` is `None`
      if all_times.isEmpty then .ok []
      else
        match pyInt? userHour with
        | none => .error "invalid literal for int() with base 10"
        | some u =>
          let later := all_times.filter (fun v => u < v)
          match (if ¬ later.isEmpty then later.min? else all_times.max?) with
          | none => .ok []
          | some f => .ok (marineMatchedHours hours (pyZfill 4 (toString f)))
  else .ok matched

/-- `parsed_date.date().isoformat()`. -/
def isoDate (dt : PyDateTime) : String :=
  fmt4 dt.year ++ "-" ++ fmt2 dt.month ++ "-" ++ fmt2 dt.day

/-- `f"{time_h[:-2]}:{time_h[-2:]}"` with `time_h = hourly["time"].zfill(4)`
(lines 295–296). -/
def hourLabel (time : String) : String :=
  let t := (pyZfill 4 time).toList
  String.mk (t.dropLast.dropLast) ++ ":" ++ String.mk (t.drop (t.length - 2))

/-- The `user_hour_str` computed at lines 277–281: the parsed hour as
`"HH00"`, else the `\D`-substituted, zero-filled raw hour text. -/
def marineUserHourStr (parse : String → Option PyDateTime) (hour : String) : String :=
  match parse (marine_parse_time_string hour) with
  | some pt => fmt2 pt.hour ++ "00"
  | none => pyZfill 4 (String.mk (removeBackslashD hour.toList))

/-- The report lines contributed by one day (`_format_weather_report` loop
body, lines 266–354): skip the day when a parsed date is present and disagrees
with the day's date; emit the date and astronomy header; select the hourly
records (all of them when no hour was requested); emit each selected record's
hour label and rendered lines. -/
def marineDayReport (parse : String → Option PyDateTime)
    (parsedDate? : Option PyDateTime) (hour : String) (day : MarineDay) :
    Except String (List String) :=
  let skip : Bool :=
    match parsedDate? with
    | some d => isoDate d ≠ day.date
    | none => false
  if skip then .ok []
  else
    let header := ["Date: " ++ day.date,
      "Sunrise: " ++ day.sunrise ++ " | Sunset: " ++ day.sunset]
    let selectedE : Except String (List MarineHourRec) :=
      if hour ≠ "" then marineSelectHours day.hourly (marineUserHourStr parse hour)
      else .ok day.hourly
    match selectedE with
    | .error e => .error e
    | .ok sel =>
      .ok (header ++ sel.foldl
        (fun acc h => acc ++ ("\n— " ++ hourLabel h.time ++ " —") :: h.rendered) [])

/-- `Tools._format_weather_report` (lines 260–356) over all returned days. -/
def format_weather_report (parse : String → Option PyDateTime)
    (days : List MarineDay) (parsedDate? : Option PyDateTime) (hour : String) :
    Except String (List String) :=
  days.foldlM (fun acc day => (marineDayReport parse parsedDate? hour day).map (acc ++ ·)) []

/-- The external collaborators of one `get_marine_weather` call.  `floatRepr`
abstracts Python `str()` on a float (used only to build the request URL);
`reverseName` is `Tools.resolve_name`, total because the source converts HTTP
failure into the `"lat,lon"` fallback internally; `responseHasData` is whether
the response JSON carries the `"data"` key (`data["data"]` raises `KeyError`
otherwise). -/
structure MarineOracle where
  floatRepr : ℚ → String
  reverseName : ℚ → ℚ → String
  geoStatus : String → Nat
  geoResults : String → List GeoCandidate
  responseStatus : Nat
  responseHasData : Bool
  weatherDays : List MarineDay
  parseDT : String → Option PyDateTime

/-- The valves of `marine_weather.py` read by the embedded control flow (the
`temp`/`wind`/`units` valves parameterize only the abstracted per-hour
rendering). -/
structure MarineValves where
  api_key : String
  tp : Option String
  tide : Bool
  lang : Option String
  includelocation : Bool

/-- `Tools._resolve_location` (lines 168–240).  With an empty location and
truthy metadata coordinates, the regex path float-parses and reverse-geocodes
them (and on a failed regex match falls back to `(0, 0, location)` — the
`return` sits outside the inner `if`).  Otherwise a location containing `,`,
`/` or `x` is split on the first of those present, and if that yields at least
two parts they are stripped, de-degree-suffixed and float-parsed directly
(`search_geo = False`).  Otherwise the dash-joined city is forward-geocoded:
a non-200 status or empty result list raises `ValueError`; a state qualifier
selects the first case-insensitive `admin1` match, else the first candidate;
the display name is always the FIRST candidate's name. -/
def marineResolveLocation (o : MarineOracle) (location : String)
    (metadata : Option String) : Except String (ℚ × ℚ × String) × List NetOp :=
  if location = "" ∧ metadata.isSome then
    match metadata with
    | some m =>
      match metaCoordMatch m with
      | some (latS, lonS) =>
        match pyFloat? (pyStrip latS), pyFloat? (pyStrip lonS) with
        | some la, some lo => (.ok (la, lo, o.reverseName la lo), [NetOp.reverseGeocode la lo])
        | _, _ => (.error "could not convert string to float", [])
      | none => (.ok (0, 0, location), [])
    | none => (.ok (0, 0, location), [])
  else
    if pyContainsChar location ',' ∨ pyContainsChar location '/' ∨ pyContainsChar location 'x' then
      let parts :=
        if pyContainsChar location ',' then pySplitChar ',' location
        else if pyContainsChar location '/' then pySplitChar '/' location
        else pySplitChar 'x' location
      if parts.length ≥ 2 then
        let latS0 := pyStrip (parts.headD "")
        let lonS0 := pyStrip (parts.getD 1 "")
        let latS := if pyEndsWithChar latS0 '°' then pyStrip (pyDropLast latS0) else latS0
        let lonS := if pyEndsWithChar lonS0 '°' then pyStrip (pyDropLast lonS0) else lonS0
        match pyFloat? latS, pyFloat? lonS with
        | some la, some lo => (.ok (la, lo, o.reverseName la lo), [NetOp.reverseGeocode la lo])
        | _, _ => (.error "could not convert string to float", [])
      else marineGeoSearch o location
    else marineGeoSearch o location
where
  marineGeoSearch (o : MarineOracle) (location : String) :
      Except String (ℚ × ℚ × String) × List NetOp :=
    let city0 := pyReplaceChar ' ' '-' location
    let cityState : String × Option String :=
      if pyContainsChar city0 ',' then
        let parts := pySplitChar ',' city0
        (pyStrip (parts.headD ""), some (pyStrip (parts.getD 1 "")))
      else (city0, none)
    let city := cityState.1
    let encoded := urlQuote city
    let ops := [NetOp.forwardGeocode encoded]
    if o.geoStatus encoded ≠ 200 then (.error "Could not get geolocation data.", ops)
    else
      match o.geoResults encoded with
      | [] => (.error ("Location \x27" ++ location ++ "\x27 not found."), ops)
      | r0 :: rs =>
        let chosen? : Option GeoCandidate :=
          match cityState.2 with
          | some st =>
            if st ≠ "" then
              (r0 :: rs).find? (fun r =>
                match r.admin1? with
                | some a => pyLower a = pyLower st
                | none => false)
            else none
          | none => none
        let chosen := chosen?.getD r0
        (.ok (chosen.latitude, chosen.longitude, r0.name), ops)

/-- `Tools._build_weather_url` (lines 242–258). -/
def build_weather_url (floatRepr : ℚ → String) (v : MarineValves) (lat lon : ℚ) : String :=
  "http://api.worldweatheronline.com/premium/v1/marine.ashx?key=" ++ v.api_key ++
    "&q=" ++ floatRepr lat ++ "," ++ floatRepr lon ++ "&format=json" ++
    (match v.tp with
     | some tp => if tp ≠ "" then "&tp=" ++ tp else ""
     | none => "") ++
    (match v.lang with
     | some lg => if lg ≠ "" then "&lang=" ++ lg else ""
     | none => "") ++
    "&tide=" ++ (if v.tide then "yes" else "no") ++
    "&includeLocation=" ++ (if v.includelocation then "yes" else "no")

/-- `Tools.get_marine_weather` (lines 358–451).  The whole body sits inside
one `try` whose `except Exception` handler returns
`json.dumps({"message": "An error occurred: ..."})`, so the call always
returns a `.ok` message.  Note the entry point calls `_resolve_location`
WITHOUT forwarding `__metadata__` (line 414), so the metadata branch is dead
here.  The second component is the network-call trace. -/
def get_marine_weather (o : MarineOracle) (v : MarineValves)
    (location date hour : String) : Except String String × List NetOp :=
  let tpInvalid : Bool :=
    match v.tp with
    | some tp => tp ≠ "" ∧ tp ∉ ["1", "3", "6", "12", "24"]
    | none => false
  if tpInvalid then
    (.ok (jsonMsg ("Error: Invalid time interval \x27" ++ (v.tp.getD "") ++
      "\x27. Valid values are 1, 3, 6, 12, 24.")), [])
  else
    match marineResolveLocation o location none with
    | (.error e, ops) => (.ok (jsonMsg ("An error occurred: " ++ e)), ops)
    | (.ok (la, lo, _name), ops) =>
      let url := build_weather_url o.floatRepr v la lo
      let ops2 := ops ++ [NetOp.marineFetch url]
      if o.responseStatus ≠ 200 then
        (.ok (jsonMsg "Error: Could not get weather data."), ops2)
      else if ¬ o.responseHasData then
        (.ok (jsonMsg ("An error occurred: " ++ "\x27data\x27")), ops2)
      else if o.weatherDays = [] then
        (.ok (jsonMsg "Error: No weather data available."), ops2)
      else
        let parsedDate? := if date ≠ "" then o.parseDT date else o.parseDT "today"
        match format_weather_report o.parseDT o.weatherDays parsedDate? hour with
        | .error e => (.ok (jsonMsg ("An error occurred: " ++ e)), ops2)
        | .ok report => (.ok (jsonMsg (pyJoin "\n" report)), ops2)

/-! ### `src/Pipes/vision_multimodal.py` — `Pipe.pipe` -/

/-- A role-tagged conversation message. -/
structure PMsg where
  role : String
  content : String
  deriving Repr, DecidableEq

/-- The valves of the vision pipe. -/
structure PipeValves where
  TEXT_MODEL_ID : String
  VISION_MODEL_ID : String
  VISION_PROMPT : String
  deriving Repr, DecidableEq

/-- The image-extension list of `_contains_image` (line 89). -/
def imageExts : List String := [".png", ".jpg", ".jpeg", ".gif", ".webp"]

/-- Python `sub in s` (substring containment). -/
def pyContainsSub (s sub : String) : Bool :=
  s.toList.tails.any (fun t => pyStartsWithL t sub.toList)

/-- A match of `https?:\/\/\S+\.(?:png|jpe?g|gif|webp)` starting at this
position (case already folded). -/
def urlImgMatchAt (t : List Char) : Bool :=
  let after? : Option (List Char) :=
    if pyStartsWithL t "http://".toList then some (t.drop 7)
    else if pyStartsWithL t "https://".toList then some (t.drop 8)
    else none
  match after? with
  | none => false
  | some rest =>
    (List.range rest.length).any (fun k =>
      0 < k ∧ (rest.take k).all (fun c => ¬ pySpaceChar c) ∧
        imageExts.any (fun ext => pyStartsWithL (rest.drop k) ext.toList))

/-- `re.search(r"https?:\/\/\S+\.(?:png|jpe?g|gif|webp)", content,
re.IGNORECASE)` truthiness (line 90–93). -/
def urlImgSearch (s : String) : Bool :=
  (pyLower s).toList.tails.any urlImgMatchAt

/-- `Pipe._contains_image` (lines 86–96). -/
def containsImage (content : String) : Bool :=
  if content = "" then false
  else
    urlImgSearch content ∨ pyStartsWith (pyStrip content) "data:image/" ∨
      imageExts.any (fun ext => pyContainsSub (pyLower content) ext)

/-- `Pipe.pipe` (lines 43–84).  There is NO `try/except` in this entry point:
`__user__["id"]` raises `KeyError` when the key is absent, and any failure of
`generate_chat_completion` (abstracted as `complete`, which also absorbs the
`Users.get_user_by_id` lookup result) propagates to the host unchanged. -/
def pipe (complete : List PMsg → String → Except String String) (v : PipeValves)
    (userId? : Option String) (messages : List PMsg) : Except String String :=
  match userId? with
  | none => .error "KeyError: \x27id\x27"
  | some _ =>
    match messages.reverse.find? (fun m => m.role = "user") with
    | some m =>
      if containsImage m.content then
        match complete [⟨"system", v.VISION_PROMPT⟩, m] v.VISION_MODEL_ID with
        | .error e => .error e
        | .ok vres =>
          complete (messages ++ [⟨"system", "Analyse de l\x27image :\n" ++ vres⟩])
            v.TEXT_MODEL_ID
      else complete messages v.TEXT_MODEL_ID
    | none => complete messages v.TEXT_MODEL_ID

/-! ### Concrete fixtures for counterexamples and witnesses -/

/-- A memory store whose update and insert operations always succeed. -/
def allOkStore (entries : List MemoryEntry) : MemStore :=
  ⟨entries, fun _ _ => true, fun _ _ => true⟩

/-- A memory store with two similar entries where updating the older entry
(id 1) returns a falsy result and updating the newer one (id 2) succeeds. -/
def failFirstStore : MemStore :=
  ⟨[⟨1, "c", 0⟩, ⟨2, "c", 1⟩], fun i _ => i == 2, fun _ _ => true⟩

/-- The hourly series of the specification's fallback example: 10:00, 11:00
and 13:00 of the target date. -/
def sampleTimes : List String :=
  ["2025-06-01T10:00", "2025-06-01T11:00", "2025-06-01T13:00"]

/-- The same three hours as World Weather Online hourly records. -/
def sampleMarineHours : List MarineHourRec :=
  [⟨"1000", []⟩, ⟨"1100", []⟩, ⟨"1300", []⟩]

/-- A concrete forecast-tool oracle: geocoding succeeds with one candidate,
the forecast endpoint succeeds with the `sampleTimes` series, natural-language
parsing always fails, and the call is anchored at 2025-06-01 12:30:45. -/
def wfOracleTest : WFOracle where
  reverseGeo := fun _ _ => "Reverse Name"
  geoStatus := fun _ => 200
  geoResults := fun _ => [⟨"Lyon", mkRat 4575 100, mkRat 481 100, some "Auvergne", some "France"⟩]
  forecast :=
    { status := 200, hasCurrentWeather := true, hourlyTimes := sampleTimes,
      reportLines := fun _ _ _ _ _ => [] }
  parseDT := fun _ => none
  now := ⟨2025, 6, 1, 12, 30, 45⟩

/-- A concrete marine-tool oracle with one forecast day holding the
`sampleMarineHours` records; the hour parser recognizes only `"12:00"`. -/
def marineOracleTest : MarineOracle where
  floatRepr := fun _ => "f"
  reverseName := fun _ _ => "Marine Reverse"
  geoStatus := fun _ => 200
  geoResults := fun _ => [⟨"Bastia", mkRat 427 10, mkRat 95 10, some "Corse", some "France"⟩]
  responseStatus := 200
  responseHasData := true
  weatherDays := [⟨"2025-06-01", "05:45 AM", "09:10 PM", sampleMarineHours⟩]
  parseDT := fun s => if s = "12:00" then some ⟨2025, 6, 1, 12, 0, 0⟩ else none

/-- Default marine valves (the pydantic defaults of `marine_weather.py`). -/
def marineValvesTest : MarineValves :=
  { api_key := "", tp := some "1", tide := false, lang := none, includelocation := false }

/-! ### C9 — wind-speed unit conversion -/

/-- C9: `convert_unit` multiplies a km/h value by 0.621371 for mph and by
0.539957 for knots (as does `format_unit` for wind); converting 10 km/h to
knots yields 5.4 within ±0.1; and for every nonnegative speed, multiplying
the knots result by the inverse factor returns the original value exactly,
hence within 0.1 km/h.  (0.621371 = 621371/1000000 and 0.539957 =
539957/1000000 exactly.) -/
theorem wind_speed_conversion (v : ℚ) (hv : 0 ≤ v) :
    convert_unit v "kmh" "mph" = v * ((621371 : ℚ) / 1000000) ∧
    convert_unit v "kmh" "knots" = v * ((539957 : ℚ) / 1000000) ∧
    format_unit v "wind" "imperial" = (v * ((621371 : ℚ) / 1000000), "mph") ∧
    format_unit v "wind" "knots" = (v * ((539957 : ℚ) / 1000000), "knots") ∧
    |convert_unit 10 "kmh" "knots" - 5.4| ≤ 0.1 ∧
    |convert_unit v "kmh" "knots" * ((1000000 : ℚ) / 539957) - v| ≤ 0.1 := by
  refine ⟨rfl, rfl, rfl, rfl, ?_, ?_⟩
  · have h : convert_unit 10 "kmh" "knots" = 10 * ((539957 : ℚ) / 1000000) := rfl
    rw [h, abs_le]
    constructor <;> norm_num
  · have h : convert_unit v "kmh" "knots" = v * ((539957 : ℚ) / 1000000) := rfl
    have h2 : v * ((539957 : ℚ) / 1000000) * ((1000000 : ℚ) / 539957) = v := by
      rw [mul_assoc]
      norm_num
    rw [h, h2, sub_self, abs_zero]
    norm_num

/-- Witness for `wind_speed_conversion` at the concrete speed 10 km/h. -/
theorem wind_speed_conversion_witness :
    (0 : ℚ) ≤ 10 ∧
    (convert_unit 10 "kmh" "mph" = 10 * ((621371 : ℚ) / 1000000) ∧
     convert_unit 10 "kmh" "knots" = 10 * ((539957 : ℚ) / 1000000) ∧
     format_unit 10 "wind" "imperial" = (10 * ((621371 : ℚ) / 1000000), "mph") ∧
     format_unit 10 "wind" "knots" = (10 * ((539957 : ℚ) / 1000000), "knots") ∧
     |convert_unit 10 "kmh" "knots" - 5.4| ≤ 0.1 ∧
     |convert_unit 10 "kmh" "knots" * ((1000000 : ℚ) / 539957) - 10| ≤ 0.1) :=
  ⟨by norm_num, wind_speed_conversion 10 (by norm_num)⟩

/-! ### C8 — date/time fallback and hour truncation -/

/-- C8: when `dateparser` yields no result for the combined date+hour string,
`resolve_datetime` returns the invocation-time anchor unmodified; and the
target string used for forecast lookup never reads the minute or second
fields (hour granularity). -/
theorem datetime_fallback_truncation (parse : String → Option PyDateTime)
    (base : PyDateTime) (dateStr hourStr : String)
    (h : parse (combinedDateHour dateStr hourStr) = none) :
    resolve_datetime parse base dateStr hourStr = base ∧
    (∀ dt m s, targetHourStr { dt with minute := m, second := s } = targetHourStr dt) := by
  refine ⟨?_, fun dt m s => rfl⟩
  unfold resolve_datetime
  rw [h]
  rfl

/-- Witness for `datetime_fallback_truncation`: a parser that fails on
everything leaves the anchor 2025-06-01 12:30:45 unmodified, and the target
string ignores minutes/seconds. -/
theorem datetime_fallback_truncation_witness :
    resolve_datetime (fun _ => none) ⟨2025, 6, 1, 12, 30, 45⟩ "demain" "14h30" =
      ⟨2025, 6, 1, 12, 30, 45⟩ ∧
    targetHourStr ⟨2025, 6, 1, 12, 59, 59⟩ = targetHourStr ⟨2025, 6, 1, 12, 0, 0⟩ := by
  have h := datetime_fallback_truncation (fun _ => none) ⟨2025, 6, 1, 12, 30, 45⟩
    "demain" "14h30" rfl
  exact ⟨h.1, h.2 ⟨2025, 6, 1, 12, 0, 0⟩ 59 59⟩

/-! ### C4 — missing user identifier (code bug) -/

/-- C4 (code bug): with no resolvable user identifier (`__user__` falsy, `id`
key absent, or empty id) `add_memory` performs zero store operations — but the
message it returns is NOT the intended "User ID not provided.": the code calls
the undefined `self._format_response`, so the reply carries the
`AttributeError` text instead. -/
theorem add_memory_missing_user_attribute_error :
    add_memory simEq 0 false (allOkStore [⟨1, "x", 0⟩]) none ["note"] =
      { message := "An error occurred: " ++ formatResponseAttrMsg, ops := [] } ∧
    add_memory simEq 0 false (allOkStore [⟨1, "x", 0⟩]) (some none) ["note"] =
      { message := "An error occurred: " ++ formatResponseAttrMsg, ops := [] } ∧
    add_memory simEq 0 false (allOkStore [⟨1, "x", 0⟩]) (some (some "")) ["note"] =
      { message := "An error occurred: " ++ formatResponseAttrMsg, ops := [] } ∧
    ("An error occurred: " ++ formatResponseAttrMsg ≠ "User ID not provided.") :=
  ⟨rfl, rfl, rfl, by decide⟩

/-! ### C5 — empty candidate list -/

/-- C5 counterexample: with a resolvable user and an empty candidate list the
call does return the "nothing changed" message and performs no insert and no
update — but its operation trace is NOT empty: `Memories.get_memories_by_user_id`
is still called (one store read), refuting "zero calls to the memory store
(no read, no insert, no update)". -/
theorem add_memory_empty_input_reads_store_counterexample :
    add_memory simEq 0 false (allOkStore [⟨1, "x", 0⟩]) (some (some "u1")) [] =
      { message := "Aucun souvenir ajouté ou mis à jour.", ops := [MemOp.read "u1"] } ∧
    (add_memory simEq 0 false (allOkStore [⟨1, "x", 0⟩]) (some (some "u1")) []).ops ≠ [] := by
  refine ⟨rfl, ?_⟩
  intro hc
  rw [show (add_memory simEq 0 false (allOkStore [⟨1, "x", 0⟩]) (some (some "u1")) []).ops =
    [MemOp.read "u1"] from rfl] at hc
  exact List.noConfusion hc

/-- C5 amended: an empty candidate list with a resolvable user returns the
"nothing changed" message and performs exactly one store operation — the read
of the user's memories — and in particular zero mutations. -/
theorem add_memory_empty_input_no_mutation (sim : String → String → ℚ) (t : ℚ)
    (useNative : Bool) (store : MemStore) (uid : String) (huid : uid ≠ "") :
    add_memory sim t useNative store (some (some uid)) [] =
      { message := reply useNative "Aucun souvenir ajouté ou mis à jour.",
        ops := [MemOp.read uid] } := by
  have h1 : userIdResolvable (some (some uid)) = some uid := by
    simp [userIdResolvable, huid]
  unfold add_memory
  rw [h1]
  cases useNative <;> rfl

/-- Witness for `add_memory_empty_input_no_mutation` at a concrete store and
user. -/
theorem add_memory_empty_input_no_mutation_witness :
    ("u1" : String) ≠ "" ∧
    add_memory simEq 0 false (allOkStore []) (some (some "u1")) [] =
      { message := reply false "Aucun souvenir ajouté ou mis à jour.",
        ops := [MemOp.read "u1"] } :=
  ⟨by decide, add_memory_empty_input_no_mutation simEq 0 false (allOkStore []) "u1" (by decide)⟩

/-! ### C6 counterexample — falsy update neither stops the scan nor records failed -/

/-- C6 counterexample: both entries match the candidate (`simEq` gives ratio
1 > 0); the update of the FIRST (oldest, id 1) matching entry returns a falsy
result; the claim then demands that scanning stop at that entry and that the
falsy store result be recorded as `failed` — instead the code continues
scanning, issues a second update (id 2) which succeeds, records the candidate
as `updated`, and records nothing as `failed`. -/
theorem failed_update_continues_scan_counterexample :
    reconcile simEq 0 failFirstStore "u1" ["c"] =
      { added := [], updated := [(2, "c")], failed := [],
        ops := [MemOp.read "u1", MemOp.update 1 "c", MemOp.update 2 "c"] } ∧
    MemOp.update 2 "c" ∈ (reconcile simEq 0 failFirstStore "u1" ["c"]).ops ∧
    (reconcile simEq 0 failFirstStore "u1" ["c"]).failed = [] := by
  refine ⟨rfl, ?_, rfl⟩
  rw [show (reconcile simEq 0 failFirstStore "u1" ["c"]).ops =
    [MemOp.read "u1", MemOp.update 1 "c", MemOp.update 2 "c"] from rfl]
  simp

/-! ### C2 counterexample — forecast fallback is not "nearest later hour" -/

/-- C2 counterexample: on the specification's own example — series 10:00,
11:00, 13:00 and target 12:00 — `get_current_weather`'s selection does not
pick 13:00 (index 2): the fallback only accepts timestamps sharing the full
date-and-hour prefix `"...T12"`, finds none, and `max()` raises `ValueError`,
which the handler converts into an error message. -/
theorem forecast_hour_fallback_counterexample :
    selectHourlyIndex sampleTimes "2025-06-01T12:00" =
      Except.error "max() arg is an empty sequence" ∧
    selectHourlyIndex sampleTimes "2025-06-01T12:00" ≠ Except.ok 2 ∧
    (get_current_weather wfOracleTest ⟨false⟩ "Lyon" "" "" none).1 =
      Except.ok (jsonMsg "An error occurred: max() arg is an empty sequence") := by
  refine ⟨rfl, ?_, rfl⟩
  intro hc
  rw [show selectHourlyIndex sampleTimes "2025-06-01T12:00" =
    Except.error "max() arg is an empty sequence" from rfl] at hc
  exact Except.noConfusion hc

/-! ### C3 counterexample — the vision pipe propagates failures -/

/-- C3 counterexample: the vision pipe entry point has no try/except — a
failing completion call propagates to the host unchanged, and a missing
`"id"` key raises `KeyError` before any processing. -/
theorem pipe_propagates_exception_counterexample :
    pipe (fun _ _ => Except.error "upstream failure") ⟨"mistral:7b", "gemma3:4b", "p"⟩
      (some "u1") [⟨"user", "hello"⟩] = Except.error "upstream failure" ∧
    pipe (fun _ _ => Except.ok "reply") ⟨"mistral:7b", "gemma3:4b", "p"⟩
      none [⟨"user", "hello"⟩] = Except.error "KeyError: \x27id\x27" :=
  ⟨rfl, rfl⟩

/-! ### C7 counterexample — slash-separated coordinates are geocoded -/

/-- C7 counterexample: `get_current_weather` with the coordinate-pair location
`"45.775/4.881"` (separator `/`) does NOT parse it directly: it issues a
forward-geocoding lookup of the string as a place name (the only separator it
parses directly is the comma). -/
theorem forecast_slash_coordinates_geocode_counterexample :
    (get_current_weather wfOracleTest ⟨false⟩ "45.775/4.881" "" "" none).2 =
      [NetOp.forwardGeocode "45.775/4.881",
       NetOp.forecastFetch (mkRat 4575 100) (mkRat 481 100)] ∧
    NetOp.forwardGeocode "45.775/4.881" ∈
      (get_current_weather wfOracleTest ⟨false⟩ "45.775/4.881" "" "" none).2 := by
  refine ⟨rfl, ?_⟩
  rw [show (get_current_weather wfOracleTest ⟨false⟩ "45.775/4.881" "" "" none).2 =
    [NetOp.forwardGeocode "45.775/4.881",
     NetOp.forecastFetch (mkRat 4575 100) (mkRat 481 100)] from rfl]
  simp

/-! ### Return-shape helper lemmas -/

/-- Every path of `get_marine_weather` returns a `json.dumps({"message": ...})`
string (the `try` wraps the whole body). -/
theorem get_marine_weather_shape (mo : MarineOracle) (mv : MarineValves)
    (location date hour : String) :
    ∃ m ops, get_marine_weather mo mv location date hour = (.ok (jsonMsg m), ops) := by
  simp only [get_marine_weather]
  repeat' split
  all_goals exact ⟨_, _, rfl⟩

/-- Every `.ok` value returned by `get_current_weather` is a
`json.dumps({"message": ...})` string. -/
theorem get_current_weather_ok_shape (o : WFOracle) (valves : WFUserValves)
    (location date hour : String) (metadata : Option String) (s : String)
    (h : (get_current_weather o valves location date hour metadata).1 = .ok s) :
    ∃ m, s = jsonMsg m := by
  simp only [get_current_weather] at h
  repeat' split at h
  all_goals simp_all
  all_goals exact ⟨_, h.symm⟩

/-- The only way `get_current_weather` raises to the host is a failure of the
pre-`try` metadata-coordinate section `wfPre`. -/
theorem get_current_weather_error_from_pre (o : WFOracle) (valves : WFUserValves)
    (location date hour : String) (metadata : Option String) (e : String)
    (h : (get_current_weather o valves location date hour metadata).1 = .error e) :
    (wfPre o location metadata).1 = .error e := by
  simp only [get_current_weather] at h
  repeat' split at h
  all_goals simp_all

/-- An always-failing completion oracle makes `pipe` fail with the same
error: nothing in the pipe catches it. -/
theorem pipe_error_propagation (v : PipeValves) (userId : String)
    (messages : List PMsg) (e : String) :
    pipe (fun _ _ => .error e) v (some userId) messages = .error e := by
  simp only [pipe]
  repeat' split
  all_goals rfl

/-! ### C10 — return shape of the weather tools -/

/-- C10: every value returned by `get_marine_weather` (which always returns)
and every value returned by `get_current_weather` on its handled paths is the
JSON serialization of an object with exactly the one key `"message"` holding a
string. -/
theorem message_shape_invariant (o : WFOracle) (valves : WFUserValves)
    (mo : MarineOracle) (mv : MarineValves)
    (location date hour : String) (metadata : Option String) :
    (∃ m ops, get_marine_weather mo mv location date hour = (.ok (jsonMsg m), ops)) ∧
    (∀ s, (get_current_weather o valves location date hour metadata).1 = .ok s →
      ∃ m, s = jsonMsg m) :=
  ⟨get_marine_weather_shape mo mv location date hour,
   fun s h => get_current_weather_ok_shape o valves location date hour metadata s h⟩

/-- Witness for `message_shape_invariant` at concrete oracles and inputs. -/
theorem message_shape_invariant_witness :
    (∃ m ops, get_marine_weather marineOracleTest marineValvesTest "Bastia" "" "" =
      (.ok (jsonMsg m), ops)) ∧
    (∃ m, jsonMsg "An error occurred: max() arg is an empty sequence" = jsonMsg m) :=
  ⟨(message_shape_invariant wfOracleTest ⟨false⟩ marineOracleTest marineValvesTest
      "Bastia" "" "" none).1,
   (message_shape_invariant wfOracleTest ⟨false⟩ marineOracleTest marineValvesTest
      "Lyon" "" "" none).2
     (jsonMsg "An error occurred: max() arg is an empty sequence") rfl⟩

/-! ### C3 amended — where failures are and are not contained -/

/-- C3 amended: the marine tool's entry point never propagates a failure (its
`try` wraps the whole body); `get_current_weather` propagates exactly the
failures of its pre-`try` metadata-coordinate section; and the vision pipe
entry point catches nothing — a failing completion call propagates to the
host unchanged. -/
theorem error_containment_policy (mo : MarineOracle) (mv : MarineValves)
    (o : WFOracle) (valves : WFUserValves) (pv : PipeValves)
    (location date hour : String) (metadata : Option String)
    (uid : String) (messages : List PMsg) (e : String) :
    (∀ err, (get_marine_weather mo mv location date hour).1 ≠ .error err) ∧
    (∀ err, (get_current_weather o valves location date hour metadata).1 = .error err →
      (wfPre o location metadata).1 = .error err) ∧
    pipe (fun _ _ => .error e) pv (some uid) messages = .error e := by
  refine ⟨?_, ?_, pipe_error_propagation pv uid messages e⟩
  · intro err hc
    obtain ⟨m, ops, hm⟩ := get_marine_weather_shape mo mv location date hour
    rw [hm] at hc
    exact Except.noConfusion hc
  · intro err h
    exact get_current_weather_error_from_pre o valves location date hour metadata err h

/-- Witness for `error_containment_policy`: the marine call returns normally;
a malformed metadata coordinate string (`"1.2.3, 4.5"`: `float("1.2.3")`
raises) makes `get_current_weather` propagate a `ValueError` raised in the
pre-`try` section. -/
theorem error_containment_policy_witness :
    (get_marine_weather marineOracleTest marineValvesTest "Bastia" "" "").1 ≠
      .error "boom" ∧
    (get_current_weather wfOracleTest ⟨false⟩ "" "" "" (some "1.2.3, 4.5")).1 =
      .error "could not convert string to float" ∧
    (wfPre wfOracleTest "" (some "1.2.3, 4.5")).1 =
      .error "could not convert string to float" :=
  ⟨(error_containment_policy marineOracleTest marineValvesTest wfOracleTest ⟨false⟩
      ⟨"t", "v", "p"⟩ "Bastia" "" "" none "u" [] "boom").1 "boom",
   rfl,
   (error_containment_policy marineOracleTest marineValvesTest wfOracleTest ⟨false⟩
      ⟨"t", "v", "p"⟩ "" "" "" (some "1.2.3, 4.5") "u" [] "boom").2.1
     "could not convert string to float" rfl⟩

/-! ### Scan-loop helper lemmas -/

instance : IsRefl MemoryEntry createdLE := ⟨fun a => le_refl a.created_at⟩

/-- The stable sort of `add_memory` is a permutation of the fetched entries. -/
theorem sortByCreatedAt_perm (l : List MemoryEntry) : List.Perm (sortByCreatedAt l) l :=
  List.perm_insertionSort createdLE l

/-- The stable sort of `add_memory` is sorted by creation time. -/
theorem sortByCreatedAt_sorted (l : List MemoryEntry) :
    List.Sorted createdLE (sortByCreatedAt l) :=
  List.sorted_insertionSort createdLE l

/-- The recorded index of the inner scan: the scan stops exactly at the first
entry that both exceeds the similarity threshold and whose update returns a
truthy result. -/
theorem scanForUpdate_fst (sim : String → String → ℚ) (t : ℚ)
    (updOk : Nat → String → Bool) (new : String) :
    ∀ (l : List MemoryEntry) (i0 : Nat),
      (scanForUpdate sim t updOk new l i0).1 =
        (l.findIdx? (fun e => decide (t < sim new e.content) && updOk e.id new) i0).map
          (fun j => j + 1) := by
  intro l
  induction l with
  | nil => intro i0; rfl
  | cons e rest ih =>
    intro i0
    rw [scanForUpdate, List.findIdx?_cons]
    by_cases hm : t < sim new e.content
    · by_cases hu : updOk e.id new = true
      · rw [if_pos hm]
        simp [hm, hu]
      · have hu2 : updOk e.id new = false := by
          revert hu
          cases updOk e.id new <;> simp
        rw [if_pos hm]
        simp [hm, hu2, ih (i0 + 1)]
    · have hm2 : decide (t < sim new e.content) = false := by simp [hm]
      rw [if_neg hm]
      simp [hm2, ih (i0 + 1)]

/-- Every operation issued by the inner scan is an update of an entry whose
similarity ratio strictly exceeds the threshold. -/
theorem scanForUpdate_ops_sound (sim : String → String → ℚ) (t : ℚ)
    (updOk : Nat → String → Bool) (new : String) :
    ∀ (l : List MemoryEntry) (i0 : Nat) (op : MemOp),
      op ∈ (scanForUpdate sim t updOk new l i0).2 →
      ∃ e ∈ l, op = MemOp.update e.id new ∧ t < sim new e.content := by
  intro l
  induction l with
  | nil => intro i0 op h; exact absurd h (List.not_mem_nil op)
  | cons e rest ih =>
    intro i0 op h
    rw [scanForUpdate] at h
    by_cases hm : t < sim new e.content
    · rw [if_pos hm] at h
      by_cases hu : updOk e.id new = true
      · simp [hu] at h
        exact ⟨e, List.mem_cons_self e rest, h, hm⟩
      · have hu2 : updOk e.id new = false := by
          revert hu
          cases updOk e.id new <;> simp
        simp [hu2] at h
        rcases h with h | h
        · exact ⟨e, List.mem_cons_self e rest, h, hm⟩
        · obtain ⟨e2, he2, hop, hm2⟩ := ih (i0 + 1) op h
          exact ⟨e2, List.mem_cons_of_mem e he2, hop, hm2⟩
    · rw [if_neg hm] at h
      obtain ⟨e2, he2, hop, hm2⟩ := ih (i0 + 1) op h
      exact ⟨e2, List.mem_cons_of_mem e he2, hop, hm2⟩

/-- When the scan finds no successful update, it has issued an update for
EVERY entry exceeding the threshold (all of them returned falsy results). -/
theorem scanForUpdate_none_all_tried (sim : String → String → ℚ) (t : ℚ)
    (updOk : Nat → String → Bool) (new : String) :
    ∀ (l : List MemoryEntry) (i0 : Nat),
      (scanForUpdate sim t updOk new l i0).1 = none →
      ∀ e ∈ l, t < sim new e.content →
        MemOp.update e.id new ∈ (scanForUpdate sim t updOk new l i0).2 := by
  intro l
  induction l with
  | nil => intro i0 _ e he; exact absurd he (List.not_mem_nil e)
  | cons e0 rest ih =>
    intro i0 hnone e he hm
    rw [scanForUpdate] at hnone ⊢
    by_cases hm0 : t < sim new e0.content
    · rw [if_pos hm0] at hnone ⊢
      by_cases hu : updOk e0.id new = true
      · simp [hu] at hnone
      · have hu2 : updOk e0.id new = false := by
          revert hu
          cases updOk e0.id new <;> simp
        simp only [hu2, Bool.false_eq_true, if_false] at hnone ⊢
        rcases List.mem_cons.mp he with rfl | he2
        · exact List.mem_cons_self _ _
        · exact List.mem_cons_of_mem _ (ih (i0 + 1) hnone e he2 hm)
    · rw [if_neg hm0] at hnone ⊢
      rcases List.mem_cons.mp he with rfl | he2
      · exact absurd hm hm0
      · exact ih (i0 + 1) hnone e he2 hm

/-- With a store whose updates all succeed, a scan over entries none of which
exceeds the threshold finds nothing and issues nothing. -/
theorem scanForUpdate_allOk_none (sim : String → String → ℚ) (t : ℚ)
    (updOk : Nat → String → Bool) (new : String) :
    ∀ (l : List MemoryEntry) (i0 : Nat),
      (∀ e ∈ l, ¬ t < sim new e.content) →
      scanForUpdate sim t updOk new l i0 = (none, []) := by
  intro l
  induction l with
  | nil => intro i0 _; rfl
  | cons e rest ih =>
    intro i0 hno
    rw [scanForUpdate, if_neg (hno e (List.mem_cons_self e rest))]
    exact ih (i0 + 1) (fun x hx => hno x (List.mem_cons_of_mem e hx))

/-- With a store whose updates all succeed, the scan stops at the first entry
exceeding the threshold and issues exactly that one update. -/
theorem scanForUpdate_allOk_found (sim : String → String → ℚ) (t : ℚ)
    (updOk : Nat → String → Bool) (new : String)
    (hupd : ∀ i s, updOk i s = true) :
    ∀ (l : List MemoryEntry) (j i0 : Nat), j < l.length →
      t < sim new (l.getD j default).content →
      (∀ i, i < j → ¬ t < sim new (l.getD i default).content) →
      scanForUpdate sim t updOk new l i0 =
        (some (i0 + j + 1), [MemOp.update (l.getD j default).id new]) := by
  intro l
  induction l with
  | nil => intro j i0 hj; exact absurd hj (Nat.not_lt_zero j)
  | cons e rest ih =>
    intro j i0 hj hmatch hbefore
    cases j with
    | zero =>
      simp only [List.getD_cons_zero] at hmatch ⊢
      rw [scanForUpdate, if_pos hmatch, hupd e.id new]
      rfl
    | succ j2 =>
      simp only [List.getD_cons_succ] at hmatch ⊢
      have hbefore2 : ∀ i, i < j2 → ¬ t < sim new (rest.getD i default).content := by
        intro i hi
        have hb := hbefore (i + 1) (Nat.succ_lt_succ hi)
        simpa only [List.getD_cons_succ] using hb
      have h0 : ¬ t < sim new e.content := by
        have hb := hbefore 0 (Nat.succ_pos j2)
        simpa only [List.getD_cons_zero] using hb
      rw [scanForUpdate, if_neg h0]
      rw [ih j2 (i0 + 1) (Nat.lt_of_succ_lt_succ hj) hmatch hbefore2]
      have harith : i0 + 1 + j2 + 1 = i0 + (j2 + 1) + 1 := by omega
      rw [harith]

/-! ### C1 — oldest-match update policy -/

/-- C1: with a store whose update operations all succeed, a candidate updates
an existing entry exactly when some entry's similarity ratio strictly exceeds
the threshold — `≤ t` (including a ratio exactly equal to the threshold)
never matches.  When no entry exceeds the threshold, the scan finds nothing
and the only issued mutation is an insert of the candidate.  When some entry
exceeds it, exactly one update is issued, to an entry that exceeds the
threshold and is oldest by creation time among all such entries, and no
insert is issued. -/
theorem add_memory_oldest_match (sim : String → String → ℚ) (t : ℚ)
    (store : MemStore) (uid C : String) (st : ReconcileState)
    (hupd : ∀ i s, store.updateOk i s = true) :
    ((∀ e ∈ store.memories, ¬ t < sim C e.content) →
      scanForUpdate sim t store.updateOk C (sortByCreatedAt store.memories) 0 = (none, []) ∧
      (processCandidate sim t store uid (sortByCreatedAt store.memories) st C).ops =
        st.ops ++ [MemOp.insert uid C]) ∧
    ((∃ e ∈ store.memories, t < sim C e.content) →
      ∃ e ∈ store.memories, t < sim C e.content ∧
        (∀ e2 ∈ store.memories, t < sim C e2.content → e.created_at ≤ e2.created_at) ∧
        (∃ k, scanForUpdate sim t store.updateOk C (sortByCreatedAt store.memories) 0 =
          (some k, [MemOp.update e.id C])) ∧
        (processCandidate sim t store uid (sortByCreatedAt store.memories) st C).ops =
          st.ops ++ [MemOp.update e.id C]) := by
  have hperm := sortByCreatedAt_perm store.memories
  constructor
  · intro hno
    have hs : scanForUpdate sim t store.updateOk C (sortByCreatedAt store.memories) 0 =
        (none, []) := by
      apply scanForUpdate_allOk_none
      intro e he
      exact hno e (hperm.mem_iff.mp he)
    refine ⟨hs, ?_⟩
    unfold processCandidate
    rw [hs]
    by_cases hins : store.insertOk uid C = true
    · simp [hins]
    · have hins2 : store.insertOk uid C = false := by
        revert hins
        cases store.insertOk uid C <;> simp
      simp [hins2]
  · intro hex
    obtain ⟨e0, he0mem, he0⟩ := hex
    have he0mem2 : e0 ∈ sortByCreatedAt store.memories := hperm.mem_iff.mpr he0mem
    have hgetD : ∀ (i : Nat) (h : i < (sortByCreatedAt store.memories).length),
        (sortByCreatedAt store.memories).getD i default =
          (sortByCreatedAt store.memories).get ⟨i, h⟩ := by
      intro i h
      rw [List.getD_eq_get?, List.get?_eq_get h]
      rfl
    have hP : ∃ j, j < (sortByCreatedAt store.memories).length ∧
        t < sim C ((sortByCreatedAt store.memories).getD j default).content := by
      obtain ⟨⟨n, hn⟩, hget⟩ := List.mem_iff_get.mp he0mem2
      refine ⟨n, hn, ?_⟩
      rw [hgetD n hn, hget]
      exact he0
    have hj0len := (Nat.find_spec hP).1
    have hj0match := (Nat.find_spec hP).2
    have hbefore : ∀ i, i < Nat.find hP →
        ¬ t < sim C ((sortByCreatedAt store.memories).getD i default).content := by
      intro i hi hlt
      exact Nat.find_min hP hi ⟨lt_trans hi hj0len, hlt⟩
    have hscan := scanForUpdate_allOk_found sim t store.updateOk C hupd
      (sortByCreatedAt store.memories) (Nat.find hP) 0 hj0len hj0match hbefore
    have hemem : (sortByCreatedAt store.memories).getD (Nat.find hP) default ∈
        store.memories := by
      rw [hgetD (Nat.find hP) hj0len]
      exact hperm.mem_iff.mp (List.get_mem _ _ _)
    refine ⟨(sortByCreatedAt store.memories).getD (Nat.find hP) default, hemem,
      hj0match, ?_, ⟨0 + Nat.find hP + 1, hscan⟩, ?_⟩
    · intro e2 he2 he2match
      have he2s : e2 ∈ sortByCreatedAt store.memories := hperm.mem_iff.mpr he2
      obtain ⟨⟨k, hk⟩, hgetk⟩ := List.mem_iff_get.mp he2s
      by_cases hkj : k < Nat.find hP
      · exfalso
        apply Nat.find_min hP hkj
        refine ⟨hk, ?_⟩
        rw [hgetD k hk, hgetk]
        exact he2match
      · have hle : Nat.find hP ≤ k := Nat.le_of_not_lt hkj
        have hrel := (sortByCreatedAt_sorted store.memories).rel_get_of_le
          (a := ⟨Nat.find hP, hj0len⟩) (b := ⟨k, hk⟩) (Fin.mk_le_mk.mpr hle)
        rw [hgetD (Nat.find hP) hj0len]
        rw [hgetk] at hrel
        exact hrel
    · unfold processCandidate
      rw [hscan]

/-- Witness for `add_memory_oldest_match`: two entries both exist, the
candidate `"world"` matches only the one created at time 3 (older than time
5's entry in scan order after sorting). -/
theorem add_memory_oldest_match_witness :
    (∀ i s, (allOkStore [⟨1, "hello", 5⟩, ⟨2, "world", 3⟩]).updateOk i s = true) ∧
    (∃ e ∈ [(⟨1, "hello", 5⟩ : MemoryEntry), ⟨2, "world", 3⟩], (0 : ℚ) < simEq "world" e.content) ∧
    (∃ e ∈ [(⟨1, "hello", 5⟩ : MemoryEntry), ⟨2, "world", 3⟩],
      (0 : ℚ) < simEq "world" e.content ∧
      (∀ e2 ∈ [(⟨1, "hello", 5⟩ : MemoryEntry), ⟨2, "world", 3⟩],
        (0 : ℚ) < simEq "world" e2.content → e.created_at ≤ e2.created_at) ∧
      (∃ k, scanForUpdate simEq 0 (allOkStore [⟨1, "hello", 5⟩, ⟨2, "world", 3⟩]).updateOk
        "world" (sortByCreatedAt [⟨1, "hello", 5⟩, ⟨2, "world", 3⟩]) 0 =
          (some k, [MemOp.update e.id "world"])) ∧
      (processCandidate simEq 0 (allOkStore [⟨1, "hello", 5⟩, ⟨2, "world", 3⟩]) "u1"
        (sortByCreatedAt [⟨1, "hello", 5⟩, ⟨2, "world", 3⟩]) ⟨[], [], [], []⟩ "world").ops =
        [] ++ [MemOp.update e.id "world"]) :=
  ⟨fun _ _ => rfl, by decide,
   (add_memory_oldest_match simEq 0 (allOkStore [⟨1, "hello", 5⟩, ⟨2, "world", 3⟩])
      "u1" "world" ⟨[], [], [], []⟩ (fun _ _ => rfl)).2 (by decide)⟩

/-! ### C6 amended — per-candidate outcome policy -/

/-- C6 amended: for each candidate, updates are issued only to entries whose
ratio strictly exceeds the threshold, in oldest-to-newest order; scanning
stops at the FIRST matching entry whose update returns a truthy result (after
a falsy update the scan continues); when no update succeeds — including when
every issued update returned falsy — an insert is issued, recorded `added` if
truthy and `failed` if falsy, so a falsy update result alone is never
recorded as `failed`; and every candidate is recorded under exactly one of
the three outcomes. -/
theorem candidate_outcome_policy (sim : String → String → ℚ) (t : ℚ)
    (store : MemStore) (uid C : String) (st : ReconcileState) :
    ((processCandidate sim t store uid (sortByCreatedAt store.memories) st C).added.length +
      (processCandidate sim t store uid (sortByCreatedAt store.memories) st C).updated.length +
      (processCandidate sim t store uid (sortByCreatedAt store.memories) st C).failed.length =
      st.added.length + st.updated.length + st.failed.length + 1) ∧
    ((scanForUpdate sim t store.updateOk C (sortByCreatedAt store.memories) 0).1 =
      ((sortByCreatedAt store.memories).findIdx?
        (fun e => decide (t < sim C e.content) && store.updateOk e.id C) 0).map
          (fun j => j + 1)) ∧
    (∀ op ∈ (scanForUpdate sim t store.updateOk C (sortByCreatedAt store.memories) 0).2,
      ∃ e ∈ store.memories, op = MemOp.update e.id C ∧ t < sim C e.content) ∧
    ((scanForUpdate sim t store.updateOk C (sortByCreatedAt store.memories) 0).1 = none →
      (∀ e ∈ store.memories, t < sim C e.content →
        MemOp.update e.id C ∈
          (scanForUpdate sim t store.updateOk C (sortByCreatedAt store.memories) 0).2) ∧
      (processCandidate sim t store uid (sortByCreatedAt store.memories) st C).ops =
        st.ops ++ (scanForUpdate sim t store.updateOk C (sortByCreatedAt store.memories) 0).2 ++
          [MemOp.insert uid C] ∧
      (store.insertOk uid C = true →
        (processCandidate sim t store uid (sortByCreatedAt store.memories) st C).added =
          st.added ++ [C] ∧
        (processCandidate sim t store uid (sortByCreatedAt store.memories) st C).failed =
          st.failed) ∧
      (store.insertOk uid C = false →
        (processCandidate sim t store uid (sortByCreatedAt store.memories) st C).failed =
          st.failed ++ [C] ∧
        (processCandidate sim t store uid (sortByCreatedAt store.memories) st C).added =
          st.added)) ∧
    (∀ k, (scanForUpdate sim t store.updateOk C (sortByCreatedAt store.memories) 0).1 = some k →
      (processCandidate sim t store uid (sortByCreatedAt store.memories) st C).updated =
        st.updated ++ [(k, C)] ∧
      (processCandidate sim t store uid (sortByCreatedAt store.memories) st C).failed =
        st.failed ∧
      (processCandidate sim t store uid (sortByCreatedAt store.memories) st C).ops =
        st.ops ++ (scanForUpdate sim t store.updateOk C (sortByCreatedAt store.memories) 0).2) := by
  have hperm := sortByCreatedAt_perm store.memories
  have hfst := scanForUpdate_fst sim t store.updateOk C (sortByCreatedAt store.memories) 0
  have hsound := scanForUpdate_ops_sound sim t store.updateOk C (sortByCreatedAt store.memories) 0
  have htried := scanForUpdate_none_all_tried sim t store.updateOk C
    (sortByCreatedAt store.memories) 0
  rcases hscan : scanForUpdate sim t store.updateOk C (sortByCreatedAt store.memories) 0
    with ⟨fst, ops⟩
  rw [hscan] at hfst hsound htried
  refine ⟨?_, ?_, ?_, ?_, ?_⟩
  · unfold processCandidate
    rw [hscan]
    cases fst with
    | some k =>
      simp only [List.length_append, List.length_cons, List.length_nil]
      omega
    | none =>
      by_cases hins : store.insertOk uid C = true
      · simp only [hins, if_true, List.length_append, List.length_cons, List.length_nil]
        omega
      · have hins2 : store.insertOk uid C = false := by
          revert hins
          cases store.insertOk uid C <;> simp
        simp only [hins2, Bool.false_eq_true, if_false, List.length_append, List.length_cons,
          List.length_nil]
        omega
  · exact hfst
  · intro op hop
    obtain ⟨e, he, h1, h2⟩ := hsound op hop
    exact ⟨e, hperm.mem_iff.mp he, h1, h2⟩
  · intro hnone
    have hfn : fst = none := by simpa using hnone
    subst hfn
    refine ⟨?_, ?_, ?_, ?_⟩
    · intro e he hm
      exact htried rfl e (hperm.mem_iff.mpr he) hm
    · unfold processCandidate
      rw [hscan]
      by_cases hins : store.insertOk uid C = true
      · simp [hins]
      · have hins2 : store.insertOk uid C = false := by
          revert hins
          cases store.insertOk uid C <;> simp
        simp [hins2]
    · intro hins
      unfold processCandidate
      rw [hscan]
      simp [hins]
    · intro hins
      unfold processCandidate
      rw [hscan]
      simp [hins]
  · intro k hk
    have hfk : fst = some k := by simpa using hk
    subst hfk
    unfold processCandidate
    rw [hscan]
    simp

/-- Witness for `candidate_outcome_policy` on the two-entry store whose first
matching update fails: the scan stops at the second entry (recorded index 2),
exactly one outcome is recorded, and nothing lands in `failed`. -/
theorem candidate_outcome_policy_witness :
    ((processCandidate simEq 0 failFirstStore "u1" (sortByCreatedAt failFirstStore.memories)
      ⟨[], [], [], []⟩ "c").added.length +
     (processCandidate simEq 0 failFirstStore "u1" (sortByCreatedAt failFirstStore.memories)
      ⟨[], [], [], []⟩ "c").updated.length +
     (processCandidate simEq 0 failFirstStore "u1" (sortByCreatedAt failFirstStore.memories)
      ⟨[], [], [], []⟩ "c").failed.length = 1) ∧
    ((processCandidate simEq 0 failFirstStore "u1" (sortByCreatedAt failFirstStore.memories)
      ⟨[], [], [], []⟩ "c").updated = [(2, "c")] ∧
     (processCandidate simEq 0 failFirstStore "u1" (sortByCreatedAt failFirstStore.memories)
      ⟨[], [], [], []⟩ "c").failed = [] ∧
     (processCandidate simEq 0 failFirstStore "u1" (sortByCreatedAt failFirstStore.memories)
      ⟨[], [], [], []⟩ "c").ops =
       [] ++ (scanForUpdate simEq 0 failFirstStore.updateOk "c"
         (sortByCreatedAt failFirstStore.memories) 0).2) :=
  ⟨(candidate_outcome_policy simEq 0 failFirstStore "u1" "c" ⟨[], [], [], []⟩).1,
   (candidate_outcome_policy simEq 0 failFirstStore "u1" "c" ⟨[], [], [], []⟩).2.2.2.2 2 rfl⟩

/-! ### Marine hour-selection helper -/

/-- The hour-selection of `_format_weather_report` implements the
exact-match / nearest-later / latest policy: when no record matches the
requested hour string, the fallback re-filters on the smallest time value
strictly greater than the requested value, else on the largest value, else
selects nothing. -/
theorem marineSelectHours_policy (hours : List MarineHourRec) (userHour : String)
    (vs : List Int) (hvs : hours.mapM (fun h => pyInt? h.time) = some vs)
    (u : Int) (hu : pyInt? userHour = some u) :
    (marineMatchedHours hours userHour ≠ [] →
      marineSelectHours hours userHour = .ok (marineMatchedHours hours userHour)) ∧
    (marineMatchedHours hours userHour = [] →
      ∀ f ∈ vs, u < f → (∀ v ∈ vs, u < v → f ≤ v) →
        marineSelectHours hours userHour =
          .ok (marineMatchedHours hours (pyZfill 4 (toString f)))) ∧
    (marineMatchedHours hours userHour = [] → (∀ v ∈ vs, ¬ u < v) →
      ∀ g ∈ vs, (∀ v ∈ vs, v ≤ g) →
        marineSelectHours hours userHour =
          .ok (marineMatchedHours hours (pyZfill 4 (toString g)))) ∧
    (hours = [] → marineSelectHours hours userHour = .ok []) := by
  haveI : Std.Antisymm ((· : Int) ≤ ·) := ⟨fun h1 h2 => le_antisymm h1 h2⟩
  have hperm := List.perm_insertionSort (fun a b : Int => a ≤ b) vs
  refine ⟨?_, ?_, ?_, ?_⟩
  · intro hne
    have hcond : (marineMatchedHours hours userHour).isEmpty = false := by
      cases hmm : marineMatchedHours hours userHour with
      | nil => exact absurd hmm hne
      | cons a l => rfl
    simp only [marineSelectHours, hcond, Bool.false_eq_true, if_false]
  · intro hempty f hf huf hmin
    have hcond : (marineMatchedHours hours userHour).isEmpty = true := by
      rw [hempty]
      rfl
    have hfs : f ∈ (vs.insertionSort (fun a b : Int => a ≤ b)).filter (fun v => u < v) := by
      rw [List.mem_filter]
      exact ⟨hperm.mem_iff.mpr hf, by simpa using huf⟩
    have hlater : ((vs.insertionSort (fun a b : Int => a ≤ b)).filter
        (fun v => u < v)).isEmpty = false := by
      cases hll : (vs.insertionSort (fun a b : Int => a ≤ b)).filter (fun v => u < v) with
      | nil => rw [hll] at hfs; exact absurd hfs (List.not_mem_nil f)
      | cons a l => rfl
    have hminval : ((vs.insertionSort (fun a b : Int => a ≤ b)).filter
        (fun v => u < v)).min? = some f := by
      rw [List.min?_eq_some_iff (fun a : Int => le_refl a) (fun a b => min_choice a b)
        (fun a b c => le_min_iff)]
      refine ⟨hfs, ?_⟩
      intro b hb
      rw [List.mem_filter] at hb
      exact hmin b (hperm.mem_iff.mp hb.1) (by simpa using hb.2)
    simp only [marineSelectHours, hcond, if_true, hvs, hu, hlater, Bool.not_false,
      if_true, hminval]
    simp
    intro hcontra
    rw [hcontra] at hfs
    simp at hfs
  · intro hempty hno g hg hmax
    have hcond : (marineMatchedHours hours userHour).isEmpty = true := by
      rw [hempty]
      rfl
    have hlater : ((vs.insertionSort (fun a b : Int => a ≤ b)).filter
        (fun v => u < v)) = [] := by
      rw [List.filter_eq_nil_iff]
      intro v hv
      simpa using hno v (hperm.mem_iff.mp hv)
    have hmaxval : (vs.insertionSort (fun a b : Int => a ≤ b)).max? = some g := by
      rw [List.max?_eq_some_iff (fun a : Int => le_refl a) (fun a b => max_choice a b)
        (fun a b c => max_le_iff)]
      exact ⟨hperm.mem_iff.mpr hg, fun b hb => hmax b (hperm.mem_iff.mp hb)⟩
    simp only [marineSelectHours, hcond, if_true, hvs, hu, hlater, List.isEmpty_nil,
      Bool.not_true, Bool.false_eq_true, if_false, hmaxval]
    simp
    intro hcontra
    have hgs : g ∈ List.insertionSort (fun a b : Int => a ≤ b) vs := hperm.mem_iff.mpr hg
    rw [hcontra] at hgs
    simp at hgs
  · intro hnil
    subst hnil
    simp only [marineSelectHours, marineMatchedHours, List.filter_nil, List.isEmpty_nil,
      if_true, List.mapM_nil, hu]
    rfl

/-! ### C2 — hour-selection policies of the two weather tools -/

/-- A string starts with every prefix of itself. -/
theorem pyStartsWithL_take (l : List Char) (n : Nat) : pyStartsWithL l (l.take n) = true := by
  induction l generalizing n with
  | nil => cases n <;> rfl
  | cons c cs ih =>
    cases n with
    | zero => rfl
    | succ n2 =>
      simp only [List.take, pyStartsWithL, ih n2]
      simp

/-- A string starts with its own 13-character (or any) prefix. -/
theorem pyStartsWith_take_self (s : String) (n : Nat) : pyStartsWith s (pyTake s n) = true := by
  unfold pyStartsWith pyTake
  simpa using pyStartsWithL_take s.toList n

/-- C2 amended: the two tools implement DIFFERENT hour-selection policies.
`get_current_weather` selects the exact match when the target timestamp is in
the series, and otherwise accepts only timestamps sharing the full
date-and-hour prefix — when none does (as in the spec's 10:00/11:00/13:00
vs 12:00 example) `max()` raises and the call produces an error message, not
the nearest later hour.  `get_marine_weather`'s `_format_weather_report` does
implement exact-match / nearest-later / latest-available selection. -/
theorem hour_selection_policy (times : List String) (target : String)
    (hours : List MarineHourRec) (userHour : String) (vs : List Int) (u : Int)
    (hvs : hours.mapM (fun h => pyInt? h.time) = some vs)
    (hu : pyInt? userHour = some u) :
    (target ∈ times →
      selectHourlyIndex times target = .ok (times.indexOf target) ∧
      times.get? (times.indexOf target) = some target) ∧
    ((∀ s ∈ times, ¬ pyStartsWith s (pyTake target 13) = true) →
      selectHourlyIndex times target = .error "max() arg is an empty sequence") ∧
    (marineMatchedHours hours userHour ≠ [] →
      marineSelectHours hours userHour = .ok (marineMatchedHours hours userHour)) ∧
    (marineMatchedHours hours userHour = [] →
      ∀ f ∈ vs, u < f → (∀ v ∈ vs, u < v → f ≤ v) →
        marineSelectHours hours userHour =
          .ok (marineMatchedHours hours (pyZfill 4 (toString f)))) ∧
    (marineMatchedHours hours userHour = [] → (∀ v ∈ vs, ¬ u < v) →
      ∀ g ∈ vs, (∀ v ∈ vs, v ≤ g) →
        marineSelectHours hours userHour =
          .ok (marineMatchedHours hours (pyZfill 4 (toString g)))) ∧
    (hours = [] → marineSelectHours hours userHour = .ok []) := by
  have hmar := marineSelectHours_policy hours userHour vs hvs u hu
  refine ⟨?_, ?_, hmar.1, hmar.2.1, hmar.2.2.1, hmar.2.2.2⟩
  · intro hmem
    have hc : times.contains target = true := by simpa using hmem
    constructor
    · rw [selectHourlyIndex, if_pos hc]
    · exact List.indexOf_get? hmem
  · intro hnp
    have hmem : target ∉ times := by
      intro hm
      exact absurd (pyStartsWith_take_self target 13) (hnp target hm)
    have hfil : times.enum.filter (fun p => pyStartsWith p.2 (pyTake target 13)) = [] := by
      rw [List.filter_eq_nil_iff]
      intro p hp
      have hp2 : p.2 ∈ times := by
        have := List.mem_enum_iff_get?.mp hp
        exact List.get?_mem this
      simpa using hnp p.2 hp2
    rw [selectHourlyIndex]
    rw [if_neg (by simpa using hmem)]
    rw [hfil]
    rfl

/-- Witness for `hour_selection_policy`: the exact match 11:00 is selected by
index in the forecast tool, and on the 10:00/11:00/13:00 series with target
hour 1200 the marine tool selects exactly the 13:00 record (the nearest later
hour). -/
theorem hour_selection_policy_witness :
    (selectHourlyIndex sampleTimes "2025-06-01T11:00" =
      .ok (sampleTimes.indexOf "2025-06-01T11:00") ∧
     sampleTimes.get? (sampleTimes.indexOf "2025-06-01T11:00") = some "2025-06-01T11:00") ∧
    marineSelectHours sampleMarineHours "1200" =
      .ok (marineMatchedHours sampleMarineHours (pyZfill 4 (toString (1300 : Int)))) ∧
    marineSelectHours sampleMarineHours "1200" = .ok [⟨"1300", []⟩] :=
  ⟨(hour_selection_policy sampleTimes "2025-06-01T11:00" sampleMarineHours "1200"
      [1000, 1100, 1300] 1200 rfl rfl).1 (by decide),
   (hour_selection_policy sampleTimes "2025-06-01T11:00" sampleMarineHours "1200"
      [1000, 1100, 1300] 1200 rfl rfl).2.2.2.1 rfl 1300 (by decide) (by decide)
     (by decide),
   rfl⟩

/-! ### C7 amended — which coordinate separators are parsed directly -/

/-- C7 amended: the marine resolver parses ANY location containing `,`, `/`
or `x` whose chosen split yields at least two float-parsable (optionally
degree-suffixed) parts directly into latitude/longitude, issuing only a
best-effort reverse-geocode and no forward geocoding; `get_current_weather`
does this only for the COMMA form whose halves start with a digit (slash/x
forms fall through to forward geocoding there, see the counterexample). -/
theorem coordinate_parse_policy (mo : MarineOracle) (o : WFOracle)
    (valves : WFUserValves) (location : String) (metadata : Option String)
    (la lo : ℚ) :
    (¬ (location = "" ∧ metadata.isSome) →
      ((pyContainsChar location ',' : Prop) ∨ (pyContainsChar location '/' : Prop) ∨
        (pyContainsChar location 'x' : Prop)) →
      ∀ parts : List String,
        parts = (if pyContainsChar location ',' then pySplitChar ',' location
                 else if pyContainsChar location '/' then pySplitChar '/' location
                 else pySplitChar 'x' location) →
        parts.length ≥ 2 →
        pyFloat? (if pyEndsWithChar (pyStrip (parts.headD "")) '°' then
            pyStrip (pyDropLast (pyStrip (parts.headD ""))) else pyStrip (parts.headD "")) =
          some la →
        pyFloat? (if pyEndsWithChar (pyStrip (parts.getD 1 "")) '°' then
            pyStrip (pyDropLast (pyStrip (parts.getD 1 ""))) else pyStrip (parts.getD 1 "")) =
          some lo →
        marineResolveLocation mo location metadata =
          (.ok (la, lo, mo.reverseName la lo), [NetOp.reverseGeocode la lo])) ∧
    (pyContainsChar location ',' = true →
      pyStrip ((pySplitChar ',' location).getD 1 "") ≠ "" →
      matchLeadingDigits (pyStrip ((pySplitChar ',' location).headD "")) = true →
      matchLeadingDigits (pyStrip ((pySplitChar ',' location).getD 1 "")) = true →
      pyFloat? (pyStrip ((pySplitChar ',' location).headD "")) = some la →
      pyFloat? (pyStrip ((pySplitChar ',' location).getD 1 "")) = some lo →
      wfLocate o valves location none =
        (.ok (.value (la, lo, o.reverseGeo la lo)), [NetOp.reverseGeocode la lo])) := by
  constructor
  · intro hmeta hsep parts hparts hlen hla hlo
    subst hparts
    simp only [marineResolveLocation]
    rw [if_neg hmeta, if_pos hsep, if_pos hlen, hla, hlo]
  · intro hcomma hne hd1 hd2 hla hlo
    simp only [List.getD_eq_getElem?_getD, List.headD_eq_head?] at hne hd1 hd2 hla hlo
    simp [wfLocate, hcomma, hne, hd1, hd2, hla, hlo]

/-- Witness for `coordinate_parse_policy` on the specification's example
`"45.775, 4.881"`: both tools parse it directly to latitude 45.775 and
longitude 4.881 (as exact rationals) with only a reverse-geocode call. -/
theorem coordinate_parse_policy_witness :
    marineResolveLocation marineOracleTest "45.775, 4.881" none =
      (.ok (mkRat 45775 1000, mkRat 4881 1000, "Marine Reverse"),
        [NetOp.reverseGeocode (mkRat 45775 1000) (mkRat 4881 1000)]) ∧
    wfLocate wfOracleTest ⟨false⟩ "45.775, 4.881" none =
      (.ok (.value (mkRat 45775 1000, mkRat 4881 1000, "Reverse Name")),
        [NetOp.reverseGeocode (mkRat 45775 1000) (mkRat 4881 1000)]) :=
  ⟨(coordinate_parse_policy marineOracleTest wfOracleTest ⟨false⟩ "45.775, 4.881" none
      (mkRat 45775 1000) (mkRat 4881 1000)).1 (by decide) (Or.inl (by decide))
      (pySplitChar ',' "45.775, 4.881") rfl (by decide) rfl rfl,
   (coordinate_parse_policy marineOracleTest wfOracleTest ⟨false⟩ "45.775, 4.881" none
      (mkRat 45775 1000) (mkRat 4881 1000)).2 rfl (by decide) rfl rfl rfl rfl⟩
